import Mathlib

/-!
Verification model of `pricing_schedule_check.py`.

The file shallowly embeds the pure logic of the script: hierarchical
identifier parsing, schedule classification, the deviation ledger
(odd-ones-out file) and its update/removal operations, the remediation
write-outcome classification, the retry flow, the station scan loop and
the checkpointed top-level sweep.  External effects (subprocess calls,
file I/O, timestamps, interactive prompts) are modelled by explicit
parameters: call outcomes are values of `CallResult`, timestamps are
opaque strings passed in, JSON documents are values of `JVal`, and the
persisted JSON files are Lean structures mirroring the documents the
script reads and writes.  Numbers in JSON are modelled as rationals
(the comparisons in the script are equalities against the literal 0.5,
which is exact in binary floating point, so rational equality is
faithful); the textual rendering of numbers inside serialized JSON is
the rational `toString`, an abstraction of CPython float formatting
that no theorem below depends on.

Definitions are translated from the source; each carries the name of
the Python function it embeds where Lean syntax allows.
-/

set_option maxHeartbeats 1600000

/-! ### Small executable string utilities

The script manipulates identifiers with `str.split`, `str.replace`,
`str.startswith`, `str.lower` and `in`.  We implement these over
`List Char` by structural recursion so that every definition reduces
in the kernel. -/

/-- Split a character list at every character satisfying `p`
(Python `str.split(sep)` with a one-character separator keeps empty
pieces; `str.split()` drops them — the caller filters). -/
def splitWhen (p : Char → Bool) : List Char → List (List Char)
  | [] => [[]]
  | a :: rest =>
      let r := splitWhen p rest
      if p a then [] :: r
      else
        match r with
        | [] => [[a]]
        | h :: t => (a :: h) :: t

/-- Join strings with a separator (`sep.join(parts)`). -/
def joinWith (sep : String) : List String → String
  | [] => ""
  | [x] => x
  | x :: xs => x ++ sep ++ joinWith sep xs

/-- Does list `l` start with list `pre`? -/
def listStarts [BEq α] : List α → List α → Bool
  | [], _ => true
  | _ :: _, [] => false
  | a :: as, b :: bs => a == b && listStarts as bs

/-- `s.startswith(pre)` of the Python source. -/
def strStarts (pre s : String) : Bool := listStarts pre.toList s.toList

/-- Does `needle` occur as a contiguous sublist of the second argument? -/
def subIn [BEq α] (needle : List α) : List α → Bool
  | [] => needle.isEmpty
  | l@(_ :: rest) => listStarts needle l || subIn needle rest

/-- Python `needle in haystack` on strings. -/
def substrIn (needle haystack : String) : Bool := subIn needle.toList haystack.toList

/-- ASCII lower-casing of one character (enough for the evse-model check). -/
def chLower (c : Char) : Char :=
  if 'A' ≤ c && c ≤ 'Z' then Char.ofNat (c.toNat + 32) else c

/-- Python `str.lower()` (ASCII fragment used by the script). -/
def strLower (s : String) : String := String.mk (s.toList.map chLower)

/-- Is this character one of the whitespace characters `str.split()` splits on? -/
def isWs (c : Char) : Bool := c == ' ' || c == '\t' || c == '\n' || c == '\r'

/-- `pfid.split("-")`: the hyphen-separated segments of an identifier. -/
def pfidSegments (s : String) : List String :=
  (splitWhen (fun c => c == '-') s.toList).map String.mk

/-! ### Schedule model and classification (`check_schedule_values`) -/

/-- One `{"t": ..., "f": ...}` object of a pricing schedule.  The script
reads both fields with `dict.get`, so each may be absent (`none`).
The mismatch records it builds are `{"t": entry.t, "f": entry.f}`,
i.e. values of this same shape. -/
structure ScheduleEntry where
  t : Option Rat
  f : Option Rat
deriving DecidableEq

/-- `check_schedule_values(schedule, expected_f)`.  A `none` schedule is an
absent one; note that the Python guard `if not schedule` is also taken for
the empty list, so a present-but-empty schedule yields `(None, [])`. -/
def check_schedule_values (schedule : Option (List ScheduleEntry)) (expected_f : Rat) :
    Option Bool × List ScheduleEntry :=
  match schedule with
  | none => (none, [])
  | some entries =>
      if entries.isEmpty then (none, [])
      else
        let mismatches := entries.filter (fun e => e.f != some expected_f)
        (some mismatches.isEmpty, mismatches)

/-! ### JSON values

`JVal` models the parsed JSON documents exchanged with the device API and
stored in the ledger file.  Dictionary lookup is lookup in an ordered
association list (Python dicts have unique keys; the functions below use
first-match lookup, which coincides on such lists). -/

inductive JVal where
  | jnull : JVal
  | jbool : Bool → JVal
  | jnum : Rat → JVal
  | jstr : String → JVal
  | jarr : List JVal → JVal
  | jobj : List (String × JVal) → JVal

/-- `d.get(k)` — `none` when the key is missing. -/
def jlookup (fields : List (String × JVal)) (k : String) : Option JVal :=
  (fields.find? (fun p => p.1 == k)).map (fun p => p.2)

/-- `d.get(k, default)`. -/
def jgetD (fields : List (String × JVal)) (k : String) (d : JVal) : JVal :=
  (jlookup fields k).getD d

/-- Python truthiness of a JSON value (`if not x` / `if x`). -/
def jtruthy : JVal → Bool
  | .jnull => false
  | .jbool b => b
  | .jnum q => q != 0
  | .jstr s => s != ""
  | .jarr xs => !xs.isEmpty
  | .jobj fs => !fs.isEmpty

/-- Quote a string as JSON (`json.dumps` on a str; escaping restricted to
backslash and double quote, which covers every string the script builds). -/
def jquote (s : String) : String :=
  "\"" ++ ((s.replace "\\" "\\\\").replace "\"" "\\\"") ++ "\""

mutual

/-- `json.dumps` with CPython's default separators.  Numbers render via
`Rat.toString` (an abstraction of float formatting, see the file header). -/
def dumps : JVal → String
  | .jnull => "null"
  | .jbool true => "true"
  | .jbool false => "false"
  | .jnum q => toString q
  | .jstr s => jquote s
  | .jarr xs => "[" ++ dumpsList xs ++ "]"
  | .jobj fs => "\x7b" ++ dumpsFields fs ++ "\x7d"

/-- Comma-joined array elements of `dumps`. -/
def dumpsList : List JVal → String
  | [] => ""
  | [x] => dumps x
  | x :: xs => dumps x ++ ", " ++ dumpsList xs

/-- Comma-joined `"key": value` pairs of `dumps`. -/
def dumpsFields : List (String × JVal) → String
  | [] => ""
  | [kv] => jquote kv.1 ++ ": " ++ dumps kv.2
  | kv :: fs => jquote kv.1 ++ ": " ++ dumps kv.2 ++ ", " ++ dumpsFields fs

end

/-- Python `str()` of a JSON value, as used for `str(nats_response)`.
For containers the script would print the `repr`; we approximate it with
the JSON rendering (no claim depends on this string's exact shape). -/
def pyStr : JVal → String
  | .jnull => "None"
  | .jbool true => "True"
  | .jbool false => "False"
  | .jnum q => toString q
  | .jstr s => s
  | v => dumps v

/-! ### External calls and the write-outcome classification

`get_configuration` / `set_configuration` run `curl` and parse the output;
on `CalledProcessError` or `JSONDecodeError` they return the object
`{"error": detail}`.  `CallResult` is the outcome of one such call. -/

inductive CallResult where
  | ok : List (String × JVal) → CallResult
  | fail : String → CallResult

/-- The dictionary `get_configuration`/`set_configuration` hand back to the
caller: the parsed body on success, `{"error": detail}` on a call-level
failure (transport error or unparseable response). -/
def call_response : CallResult → List (String × JVal)
  | .ok body => body
  | .fail detail => [("error", JVal.jstr detail)]

/-- `nats_response.get("status", "Unknown") == "Accepted"`: the status label
comparison of `prompt_update_odd_ones` / `main_retry_site` (equality with a
non-string JSON value is `False` in Python). -/
def isAccepted (fields : List (String × JVal)) : Bool :=
  match jgetD fields "status" (JVal.jstr "Unknown") with
  | .jstr s => s == "Accepted"
  | _ => false

/-- The rejection-reason extraction of the non-`Accepted` branch: an `error`
field, then a `message` field, then a `reason` field, else the serialized
`natsResponse`. -/
def rejectionReasonOf (fields : List (String × JVal)) : JVal :=
  match jlookup fields "error" with
  | some v => v
  | none =>
      match jlookup fields "message" with
      | some v => v
      | none =>
          match jlookup fields "reason" with
          | some v => v
          | none => JVal.jstr (dumps (JVal.jobj fields))

/-- One status/detail pair written to the ledger by
`update_odd_ones_status` (`rejection_reason=None` is `jnull`). -/
structure LedgerWrite where
  status : String
  reason : JVal

/-- The first ledger update of one write attempt, decided from
`result.get("natsResponse", {})` exactly as in the source: a dict with
status `Accepted` → `accepted`; a dict with any other status → `rejected`
with the extracted reason; a non-dict → `error` with
`str(nats_response) if nats_response else "Unknown error"`. -/
def firstWrite (result : List (String × JVal)) : LedgerWrite :=
  match jgetD result "natsResponse" (JVal.jobj []) with
  | .jobj fields =>
      if isAccepted fields then { status := "accepted", reason := JVal.jnull }
      else { status := "rejected", reason := rejectionReasonOf fields }
  | other =>
      { status := "error",
        reason := JVal.jstr (if jtruthy other then pyStr other else "Unknown error") }

/-- All ledger updates of one write attempt, in order: the classification
update, then — whenever the returned dict carries a top-level `error` key —
a second update to `error` with that key's raw value (the unconditional
`if "error" in result` block at the end of both update loops). -/
def attemptWrites (result : List (String × JVal)) : List LedgerWrite :=
  match jlookup result "error" with
  | some v => [firstWrite result, { status := "error", reason := v }]
  | none => [firstWrite result]

/-- The last ledger update of one write attempt — the status/detail the
station record is left with. -/
def finalWrite (result : List (String × JVal)) : LedgerWrite :=
  match jlookup result "error" with
  | some v => { status := "error", reason := v }
  | none => firstWrite result

/-- The `(accepted_count, rejected_count)` increments of one attempt
(the second `error` update increments no counter). -/
def attemptCounts (result : List (String × JVal)) : Nat × Nat :=
  match jgetD result "natsResponse" (JVal.jobj []) with
  | .jobj fields => if isAccepted fields then (1, 0) else (0, 1)
  | _ => (0, 1)

/-! ### The deviation ledger (the odd-ones-out file)

The file is the JSON object `{"sites": {site_key: entry}}`; a `Ledger`
carries the `sites` dict as an ordered association list (Python dicts
preserve insertion order and have unique keys). -/

/-- One element of a site entry's `stations` array.  `update_status` is
read with `dict.get` (absent → `none`); `rejection_reason` is whatever JSON
value was stored (`None` → `jnull`). -/
structure StationRecord where
  pfid : String
  acn_id : Option String
  acc_id : Option String
  acg_id : Option String
  acs_id : Option String
  current_schedule : Option (List ScheduleEntry)
  mismatches : List ScheduleEntry
  update_status : Option String
  rejection_reason : JVal
  last_attempt : Option String

/-- One value of the `sites` mapping. -/
structure SiteEntry where
  mode : Option String
  acn_id : Option String
  acc_id : Option String
  acg_id : Option String
  acs_id : Option String
  saved_at : String
  last_updated : String
  correct_schedule : List ScheduleEntry
  stations : List StationRecord

/-- The whole odd-ones-out file. -/
structure Ledger where
  sites : List (String × SiteEntry)

/-- `all_data["sites"].get(site_key)`. -/
def lookupSite : List (String × SiteEntry) → String → Option SiteEntry
  | [], _ => none
  | (k2, e) :: rest, k => if k2 == k then some e else lookupSite rest k

/-- `all_data["sites"][site_key] = entry` (replace in place, else append —
Python dict assignment). -/
def setSite : List (String × SiteEntry) → String → SiteEntry → List (String × SiteEntry)
  | [], k, v => [(k, v)]
  | (k2, e) :: rest, k, v =>
      if k2 == k then (k, v) :: rest else (k2, e) :: setSite rest k v

/-- `del all_data["sites"][site_key]`. -/
def eraseSite : List (String × SiteEntry) → String → List (String × SiteEntry)
  | [], _ => []
  | (k2, e) :: rest, k => if k2 == k then rest else (k2, e) :: eraseSite rest k

/-- The three field assignments `update_odd_ones_status` performs on the
matched station: `update_status`, `rejection_reason`, `last_attempt`. -/
def setWrite (r : StationRecord) (w : LedgerWrite) (now : String) : StationRecord :=
  { r with update_status := some w.status, rejection_reason := w.reason,
           last_attempt := some now }

/-- Update the first station whose `pfid` matches; `none` when no station
of the list matches (the inner `for station in ...` loop). -/
def updateFirstMatch (pfid : String) (w : LedgerWrite) (now : String) :
    List StationRecord → Option (List StationRecord)
  | [] => none
  | r :: rest =>
      if r.pfid == pfid then some (setWrite r w now :: rest)
      else (updateFirstMatch pfid w now rest).map (fun l => r :: l)

/-- Update a station inside one site entry, refreshing the site's
`last_updated` timestamp. -/
def updateSiteEntry (site : SiteEntry) (pfid : String) (w : LedgerWrite) (now : String) :
    Option SiteEntry :=
  (updateFirstMatch pfid w now site.stations).map
    (fun sts => { site with stations := sts, last_updated := now })

/-- The `site_key=None` search of `update_odd_ones_status`: every site in
iteration order, first match wins. -/
def updateSitesAll : List (String × SiteEntry) → String → LedgerWrite → String →
    Option (List (String × SiteEntry))
  | [], _, _, _ => none
  | (k, site) :: rest, pfid, w, now =>
      match updateSiteEntry site pfid w now with
      | some site2 => some ((k, site2) :: rest)
      | none => (updateSitesAll rest pfid w now).map (fun l => (k, site) :: l)

/-- The `site_key=k` variant: only the entry stored under `k` is searched. -/
def updateSitesKeyed : List (String × SiteEntry) → String → String → LedgerWrite → String →
    Option (List (String × SiteEntry))
  | [], _, _, _, _ => none
  | (k2, site) :: rest, k, pfid, w, now =>
      if k2 == k then (updateSiteEntry site pfid w now).map (fun site2 => (k2, site2) :: rest)
      else (updateSitesKeyed rest k pfid w now).map (fun l => (k2, site) :: l)

/-- `update_odd_ones_status(pfid, status, rejection_reason, site_key)`.
Returns the ledger after the call together with whether
`save_all_odd_ones_out` ran (it runs exactly when a station matched; when
nothing matches the function falls off the end of its loops — the file is
not re-written and no error is signaled). -/
def update_odd_ones_status (ledger : Ledger) (pfid : String) (w : LedgerWrite)
    (site_key : Option String) (now : String) : Ledger × Bool :=
  match (match site_key with
         | some k => updateSitesKeyed ledger.sites k pfid w now
         | none => updateSitesAll ledger.sites pfid w now) with
  | some sites2 => ({ sites := sites2 }, true)
  | none => (ledger, false)

/-- `all(s.get("update_status") == "accepted" for s in stations)`. -/
def allAccepted (stations : List StationRecord) : Bool :=
  stations.all (fun s => s.update_status == some "accepted")

/-- `remove_completed_site(site_key)`: delete the site's entry iff present
and every contained station record is `accepted`. -/
def remove_completed_site (ledger : Ledger) (site_key : String) : Ledger :=
  match lookupSite ledger.sites site_key with
  | none => ledger
  | some site =>
      if allAccepted site.stations then { sites := eraseSite ledger.sites site_key }
      else ledger

/-- Index of the first list element satisfying `p`. -/
def firstIdxP {α : Type} (p : α → Bool) : List α → Option Nat
  | [] => none
  | a :: rest => if p a then some 0 else (firstIdxP p rest).map (· + 1)

/-- Index of the first station record with the given identifier. -/
def firstRecIdx (stations : List StationRecord) (pfid : String) : Option Nat :=
  firstIdxP (fun r => r.pfid == pfid) stations

/-- Index of the first site (in dict iteration order) containing a station
with the given identifier. -/
def firstSiteIdx (sites : List (String × SiteEntry)) (pfid : String) : Option Nat :=
  firstIdxP (fun p => p.2.stations.any (fun r => r.pfid == pfid)) sites

/-- The site entry after `update_odd_ones_status` rewrote the record at
index `j` as `rec` and refreshed `last_updated`. -/
def siteUpdated (site : SiteEntry) (j : Nat) (rec : StationRecord) (w : LedgerWrite) (now : String) : SiteEntry :=
  { site with stations := site.stations.set j (setWrite rec w now), last_updated := now }

/-! ### Scope keys and saving a deviation batch -/

/-- Python `f"{x}"` of an optional string (`None` renders as `"None"`). -/
def pyFmt : Option String → String
  | some s => s
  | none => "None"

/-- Python truthiness of an optional string (`None` and `""` are falsy). -/
def truthyOptS : Option String → Bool
  | some s => s != ""
  | none => false

/-- Python `x or d` for an optional string, yielding the fallback for
`None` and for the empty string. -/
def pyOrS (o : Option String) (d : String) : String :=
  match o with
  | some s => if s != "" then s else d
  | none => d

/-- `get_site_key(acn_id, acc_id, acg_id, acs_id, mode)`. -/
def get_site_key (acn_id acc_id acg_id acs_id mode : Option String) : String :=
  if mode == some "acn-only" || (acc_id.isNone && acg_id.isNone && acs_id.isNone) then
    pyFmt acn_id
  else if mode == some "acn-acc" || (acg_id.isNone && acs_id.isNone) then
    pyFmt acn_id ++ "-" ++ pyFmt acc_id
  else if mode == some "acn-acc-acg" || acs_id.isNone then
    pyFmt acn_id ++ "-" ++ pyFmt acc_id ++ "-" ++ pyFmt acg_id
  else
    pyFmt acn_id ++ "-" ++ pyFmt acc_id ++ "-" ++ pyFmt acg_id ++ "-" ++ pyFmt acs_id

/-- One element of the result list `process_stations` builds per station. -/
structure ScanRow where
  pfid : String
  acn_id : String
  acc_id : String
  acg_id : Option String
  acs_id : Option String
  schedule : Option (List ScheduleEntry)
  enabled : Bool
  all_correct : Option Bool
  mismatches : List ScheduleEntry
deriving DecidableEq

/-- The station dict `save_odd_ones_out` stores for one scan row: scan rows
carry no `update_status`/`rejection_reason` keys, so the saved record is
`pending` with a `None` reason and no `last_attempt`. -/
def rowToRecord (r : ScanRow) : StationRecord :=
  { pfid := r.pfid, acn_id := some r.acn_id, acc_id := some r.acc_id,
    acg_id := r.acg_id, acs_id := r.acs_id,
    current_schedule := r.schedule, mismatches := r.mismatches,
    update_status := some "pending", rejection_reason := JVal.jnull,
    last_attempt := none }

/-- Python `set(...)` of a string list, as a duplicate-free list (first
occurrences; CPython set iteration order is unspecified, but the script
only inspects the set's size and, when it is a singleton, its element). -/
def pyset (l : List String) : List String :=
  l.foldl (fun acc x => if acc.contains x then acc else acc ++ [x]) []

/-- The `acn_id`-inference of `save_odd_ones_out`: when not supplied, taken
from the first station of the batch. -/
def inferAcnId (acn_id : Option String) (odd_ones : List ScanRow) : Option String :=
  match acn_id, odd_ones with
  | none, r :: _ => some r.acn_id
  | a, _ => a

/-- The `acc_id`/`mode`-inference of `save_odd_ones_out`: when no level-2
identifier is supplied (and the mode is not `acn-only`), a singleton set of
batch `acc_id`s fixes `acc_id` (and, absent a mode, `acn-acc`); otherwise
`acc_id` stays unset and an absent mode becomes `acn-only`. -/
def inferAccMode (acc_id mode : Option String) (odd_ones : List ScanRow) :
    Option String × Option String :=
  if acc_id.isNone && !odd_ones.isEmpty && mode != some "acn-only" then
    let accs := pyset (odd_ones.map (fun r => r.acc_id))
    if accs.length == 1 then
      (some (accs.headD ""), if mode.isNone then some "acn-acc" else mode)
    else
      (acc_id, if mode.isNone then some "acn-only" else mode)
  else (acc_id, mode)

/-- The site entry `save_odd_ones_out` writes. -/
def savedEntry (correct_schedule : List ScheduleEntry) (odd_ones : List ScanRow)
    (acn_id acc_id acg_id acs_id mode : Option String) (now : String) : SiteEntry :=
  { mode := some (pyOrS mode (if truthyOptS acc_id then "acn-acc" else "acn-only")),
    acn_id := acn_id, acc_id := acc_id, acg_id := acg_id, acs_id := acs_id,
    saved_at := now, last_updated := now,
    correct_schedule := correct_schedule,
    stations := odd_ones.map rowToRecord }

/-- `save_odd_ones_out(odd_ones, correct_schedule, acn_id, acc_id, acg_id,
acs_id, mode)`: infer missing scope components from the batch, then upsert
the entry under the resulting site key (never rejecting the batch). -/
def save_odd_ones_out (ledger : Ledger) (odd_ones : List ScanRow)
    (correct_schedule : List ScheduleEntry)
    (acn_id acc_id acg_id acs_id mode : Option String) (now : String) : Ledger :=
  let acn2 := inferAcnId acn_id odd_ones
  let im := inferAccMode acc_id mode odd_ones
  let site_key := get_site_key acn2 im.1 acg_id acs_id im.2
  { sites := setSite ledger.sites site_key
      (savedEntry correct_schedule odd_ones acn2 im.1 acg_id acs_id im.2 now) }

/-! ### The retry flow (`main_retry_site`)

The interactive confirmation prompt is the boolean parameter `confirm`;
the outcome of `set_configuration` per station is the oracle `outcome`;
`datetime.now()` is `now`.  The per-attempt classification and ledger
updates are exactly those of claim C3 (`attemptWrites`), issued through
`update_odd_ones_status` with the site key. -/

/-- `[s for s in stations if s.get("update_status") == st]`. -/
def statusFilter (stations : List StationRecord) (st : String) : List StationRecord :=
  stations.filter (fun s => s.update_status == some st)

/-- Does a record's status put it in the `pending + rejected + errored`
retry list? -/
def retrySet (r : StationRecord) : Bool :=
  r.update_status == some "pending" || r.update_status == some "rejected" ||
    r.update_status == some "error"

/-- `to_retry = pending + rejected + errored` of `main_retry_site`. -/
def toRetryOf (stations : List StationRecord) : List StationRecord :=
  statusFilter stations "pending" ++ statusFilter stations "rejected" ++
    statusFilter stations "error"

/-- The JSON object for one schedule entry (keys in storage order). -/
def schedEntryJ (e : ScheduleEntry) : JVal :=
  JVal.jobj [("t", match e.t with | some q => JVal.jnum q | none => JVal.jnull),
             ("f", match e.f with | some q => JVal.jnum q | none => JVal.jnull)]

/-- `json.dumps(correct_schedule)` — the write value sent to every retried
station; a function of the stored schedule only. -/
def dumpsSchedule (s : List ScheduleEntry) : String :=
  dumps (JVal.jarr (s.map schedEntryJ))

/-- All ledger updates of one write attempt, applied in order through
`update_odd_ones_status` with the scope's site key. -/
def applyWritesFor (ledger : Ledger) (site_key pfid : String)
    (result : List (String × JVal)) (now : String) : Ledger :=
  (attemptWrites result).foldl
    (fun L w => (update_odd_ones_status L pfid w (some site_key) now).1) ledger

/-- The observable outcome of one `main_retry_site` run: the final ledger,
the `(pfid, value)` list of corrective writes issued, and the two counters
printed at the end. -/
structure RetryOut where
  ledger : Ledger
  attempts : List (String × String)
  accepted_count : Nat
  rejected_count : Nat

/-- One iteration of the retry update loop. -/
def retryStep (site_key : String) (outcome : String → CallResult) (value now : String)
    (st : RetryOut) (s : StationRecord) : RetryOut :=
  let res := call_response (outcome s.pfid)
  let counts := attemptCounts res
  { ledger := applyWritesFor st.ledger site_key s.pfid res now,
    attempts := st.attempts ++ [(s.pfid, value)],
    accepted_count := st.accepted_count + counts.1,
    rejected_count := st.rejected_count + counts.2 }

/-- `main_retry_site(site_key)` with the confirmation answer passed in.
Missing site or empty station list: return with no work; empty retry list:
run `remove_completed_site` and return; declined confirmation: return; else
update every record of the retry list with the stored corrective schedule
and run `remove_completed_site` when no attempt was counted
rejected-or-error. -/
def main_retry_site (ledger : Ledger) (site_key : String)
    (outcome : String → CallResult) (now : String) (confirm : Bool) : RetryOut :=
  match lookupSite ledger.sites site_key with
  | none => ⟨ledger, [], 0, 0⟩
  | some site =>
      if site.stations.isEmpty then ⟨ledger, [], 0, 0⟩
      else
        let to_retry := toRetryOf site.stations
        if to_retry.isEmpty then ⟨remove_completed_site ledger site_key, [], 0, 0⟩
        else if !confirm then ⟨ledger, [], 0, 0⟩
        else
          let value := dumpsSchedule site.correct_schedule
          let out := to_retry.foldl (retryStep site_key outcome value now) ⟨ledger, [], 0, 0⟩
          if out.rejected_count == 0 then
            { out with ledger := remove_completed_site out.ledger site_key }
          else out

/-- A site entry with replaced stations and refreshed `last_updated`. -/
def siteWithStations (site : SiteEntry) (sts : List StationRecord) (now : String) : SiteEntry :=
  { site with stations := sts, last_updated := now }

/-- The rewrite one retried identifier `p` performs on a station record:
the unique record carrying `p` receives the attempt's final status. -/
def writeBack (outcome : String → CallResult) (now : String) (p : String)
    (r : StationRecord) : StationRecord :=
  if r.pfid == p then setWrite r (finalWrite (call_response (outcome p))) now else r

/-- The station list after the whole retry loop (one `writeBack` map per
retried record, in order). -/
def stationsAfter (outcome : String → CallResult) (now : String)
    (items : List StationRecord) (stations : List StationRecord) : List StationRecord :=
  items.foldl (fun sts s => sts.map (writeBack outcome now s.pfid)) stations

/-! ### The scan engine (`process_stations`)

`fetch_station_data` rows are `DirEntry` values; the per-station reads are
the oracle `io`; `json.loads` on a stored schedule string is the parameter
`loads` (`none` models a `JSONDecodeError`, which the extractor catches and
turns into an absent schedule). -/

/-- One station row of the dashboard response (`entry.get("pfid")`,
`entry.get("evse_type", "Unknown")`). -/
structure DirEntry where
  pfid : Option String
  evse_type : Option String
deriving DecidableEq

/-- What the filtering loop of `process_stations` does with one row. -/
inductive EntryFate where
  | skipped
  | filteredOut
  | liteon
  | otherModel
deriving DecidableEq

/-- One truthy component of `build_pfid_prefix` (Python `if acc:` skips
`None` and the empty string). -/
def optPart : Option String → List String
  | some s => if s == "" then [] else [s]
  | none => []

/-- `build_pfid_prefix(acn, acc, acg, acs)` — components joined by the
hyphen separator, omitting falsy ones. -/
def buildPfidKey (acn : String) (acc acg acs : Option String) : String :=
  joinWith "-" ([acn] ++ optPart acc ++ optPart acg ++ optPart acs)

/-- `pfid_prefix = build_pfid_prefix(...) if acg_id else None` of
`process_stations`. -/
def scanFilterKey (acn_id acc_id : String) (acg_id acs_id : Option String) : Option String :=
  if truthyOptS acg_id then some (buildPfidKey acn_id (some acc_id) acg_id acs_id) else none

/-- The evse-model check: `"liteon" in evse_type.lower()`. -/
def classifyModel (entry : DirEntry) : EntryFate :=
  if substrIn "liteon" (strLower (entry.evse_type.getD "Unknown")) then EntryFate.liteon
  else EntryFate.otherModel

/-- The complete per-row decision of the filtering loop: falsy `pfid` rows
are skipped, then the scope filter (plain string test against the rendered
key) drops non-matching identifiers, then the model check partitions. -/
def entryFate (filterKey : Option String) (entry : DirEntry) : EntryFate :=
  match entry.pfid with
  | none => EntryFate.skipped
  | some p =>
      if p == "" then EntryFate.skipped
      else
        match filterKey with
        | some pre => if !(strStarts pre p) then EntryFate.filteredOut else classifyModel entry
        | none => classifyModel entry

/-- The inner scan of `configuration_key` for `PricingScheduleEnable`
(first matching item decides; a missing value compares as `""`). -/
def findEnable : List JVal → Option Bool
  | [] => none
  | JVal.jobj fields :: rest =>
      if (match jlookup fields "key" with
          | some (JVal.jstr s) => s == "PricingScheduleEnable"
          | _ => false) then
        some ((match jgetD fields "value" (JVal.jstr "") with
               | JVal.jstr s => strLower s
               | _ => "") == "true")
      else findEnable rest
  | _ :: rest => findEnable rest

/-- `extract_pricing_enabled(response)`.  A missing `natsResponse` defaults
to the empty dict; a non-dict one would raise in CPython (uncaught, outside
every claim) and is modelled as `none`. -/
def extract_pricing_enabled (response : List (String × JVal)) : Option Bool :=
  match jgetD response "natsResponse" (JVal.jobj []) with
  | JVal.jobj fields =>
      match jgetD fields "configuration_key" (JVal.jarr []) with
      | JVal.jarr items => findEnable items
      | _ => none
  | _ => none

/-- The inner scan of `configuration_key` for `PricingSchedule`: the first
matching item's `value` string (default `"[]"`) is passed to `loads`; a
non-string value raises `TypeError` in `json.loads`, which the extractor
catches — hence `none`. -/
def findSchedule (loads : String → Option (List ScheduleEntry)) :
    List JVal → Option (List ScheduleEntry)
  | [] => none
  | JVal.jobj fields :: rest =>
      if (match jlookup fields "key" with
          | some (JVal.jstr s) => s == "PricingSchedule"
          | _ => false) then
        match jgetD fields "value" (JVal.jstr "[]") with
        | JVal.jstr s => loads s
        | _ => none
      else findSchedule loads rest
  | _ :: rest => findSchedule loads rest

/-- `extract_pricing_schedule(response)` (same shape remarks as the enable
extractor; iterating a non-list `configuration_key` raises `TypeError`,
caught — hence `none`). -/
def extract_pricing_schedule (loads : String → Option (List ScheduleEntry))
    (response : List (String × JVal)) : Option (List ScheduleEntry) :=
  match jgetD response "natsResponse" (JVal.jobj []) with
  | JVal.jobj fields =>
      match jgetD fields "configuration_key" (JVal.jarr []) with
      | JVal.jarr items => findSchedule loads items
      | _ => none
  | _ => none

/-- The two per-station reads of the scan loop (`get_configuration` for
`PricingScheduleEnable` and for `PricingSchedule`). -/
structure StationCalls where
  enableRead : CallResult
  schedRead : CallResult

/-- The body of the per-station scan loop.  When the enable read does not
yield exactly `True`, the script issues a fire-and-forget
`set_configuration(pfid, "PricingScheduleEnable", "true")` and sets
`enabled = True`; in both branches the recorded flag is `True`.  The write
itself has no further observable effect on the row. -/
def scanStation (loads : String → Option (List ScheduleEntry)) (io : String → StationCalls)
    (acn_id acc_id : String) (pfid : String) : ScanRow :=
  let enabled0 := extract_pricing_enabled (call_response (io pfid).enableRead)
  let enabled : Bool := if enabled0 = some true then true else true
  let schedule := extract_pricing_schedule loads (call_response (io pfid).schedRead)
  let cm := check_schedule_values schedule (mkRat 1 2)
  let ps := pfidSegments pfid
  { pfid := pfid, acn_id := acn_id, acc_id := acc_id,
    acg_id := ps[2]?, acs_id := ps[3]?,
    schedule := schedule, enabled := enabled,
    all_correct := cm.1, mismatches := cm.2 }

/-- The scan loop over the candidate identifiers, appending one row per
candidate to the accumulating result list. -/
def process_stations_rows (loads : String → Option (List ScheduleEntry))
    (io : String → StationCalls) (acn_id acc_id : String) (pfids : List String)
    (all_results : List ScanRow) : List ScanRow :=
  pfids.foldl (fun acc_r pfid => acc_r ++ [scanStation loads io acn_id acc_id pfid]) all_results

/-! ### The checkpointed ACN sweep (`main_pfid`, acn-only branch)

The per-ACC scan is the oracle `scan` (one result-row list per ACC);
`datetime.now().isoformat()` at sweep start is `now`.  The progress dict the
script saves is `Checkpoint`; the trace of `save_progress` calls and the
final state of the progress file are made explicit. -/

/-- One saved progress dict of the acn-only sweep. -/
structure Checkpoint where
  mode : String
  acn_id : String
  total_accs : Nat
  completed_accs : List String
  results : List ScanRow
  started_at : String
deriving DecidableEq

/-- The loop state of the acn-only sweep: the (mutable) `completed_accs`
and `all_results` lists, plus the trace of checkpoints written by
`save_progress`. -/
structure SweepState where
  completed : List String
  results : List ScanRow
  saves : List Checkpoint
deriving DecidableEq

/-- One iteration of the `for i, acc_id in enumerate(accs, 1)` loop: an ACC
already in `completed_accs` is skipped (`continue`); otherwise its scan is
appended to the result list, the ACC to `completed_accs`, and the updated
progress dict written by `save_progress`. -/
def stepAcc (scan : String → List ScanRow) (acn : String) (total : Nat)
    (started : String) (st : SweepState) (acc : String) : SweepState :=
  if st.completed.contains acc then st
  else
    { completed := st.completed ++ [acc],
      results := st.results ++ scan acc,
      saves := st.saves ++
        [{ mode := "acn-only", acn_id := acn, total_accs := total,
           completed_accs := st.completed ++ [acc],
           results := st.results ++ scan acc, started_at := started }] }

/-- The sweep loop over the ACC list. -/
def sweepAccs (scan : String → List ScanRow) (acn : String) (total : Nat)
    (started : String) (st : SweepState) (accs : List String) : SweepState :=
  accs.foldl (stepAcc scan acn total started) st

/-- The checkpoints the loop writes over a run of not-yet-completed ACCs,
starting from completed list `c0` and accumulated results `r0`: one
checkpoint per ACC, each holding everything completed so far. -/
def savesFor (scan : String → List ScanRow) (acn : String) (total : Nat)
    (started : String) : List String → List ScanRow → List String → List Checkpoint
  | _, _, [] => []
  | c0, r0, a :: rest =>
      { mode := "acn-only", acn_id := acn, total_accs := total,
        completed_accs := c0 ++ [a], results := r0 ++ scan a,
        started_at := started } ::
      savesFor scan acn total started (c0 ++ [a]) (r0 ++ scan a) rest

/-- The observable outcome of the acn-only branch of `main_pfid`: the final
result list, the checkpoints saved along the way, and the content of the
progress file afterwards (`delete_progress()` runs on completion, so a
graceful run ends with `persisted = none`). -/
structure SweepOut where
  results : List ScanRow
  saves : List Checkpoint
  persisted : Option Checkpoint
deriving DecidableEq

/-- The acn-only branch of `main_pfid(pfid_info, resume_progress)`:
`completed_accs` and `all_results` start from the resume checkpoint exactly
when its `acn_id` matches the requested ACN (the guard at the top of the
branch); `started_at` is carried over from any resume data; the ACC list is
then swept, and the progress file deleted at the end. -/
def main_pfid_acn_only (scan : String → List ScanRow) (acn : String)
    (accs : List String) (resume : Option Checkpoint) (now : String) : SweepOut :=
  let completed0 := match resume with
    | some cp => if cp.acn_id == acn then cp.completed_accs else []
    | none => []
  let results0 := match resume with
    | some cp => if cp.acn_id == acn then cp.results else []
    | none => []
  let started := match resume with
    | some cp => cp.started_at
    | none => now
  let fin := sweepAccs scan acn accs.length started
    { completed := completed0, results := results0, saves := [] } accs
  { results := fin.results, saves := fin.saves, persisted := none }

/-! ### Argument parsing and the entry point (`parse_pfid_input`, `main`) -/

/-- Python `combined.replace("-", " ")`. -/
def dashToSpace (s : String) : String :=
  String.mk (s.toList.map (fun c => if c == '-' then ' ' else c))

/-- The non-empty tokens `parse_pfid_input` extracts from its argument list:
join the arguments with spaces, turn dashes into spaces, split on
whitespace, and keep the non-empty pieces (`part.strip()` is the identity
on the whitespace-free pieces `str.split()` yields). -/
def tokensOf (args : List String) : List String :=
  ((splitWhen isWs (dashToSpace (joinWith " " args)).toList).map String.mk).filter
    (fun p => p != "")

/-- The dict `parse_pfid_input` returns. -/
structure PfidInfo where
  acn : Option String
  acc : Option String
  acg : Option String
  acs : Option String
  mode : Option String
deriving DecidableEq

/-- `parse_pfid_input(args)`: tokens are mapped positionally onto the four
levels; the mode label is overwritten once per populated level, so the last
write (the deepest populated level) survives. -/
def parse_pfid_input (args : List String) : PfidInfo :=
  let parts := tokensOf args
  { acn := parts[0]?, acc := parts[1]?, acg := parts[2]?, acs := parts[3]?,
    mode := if parts.length ≥ 4 then some "acn-acc-acg-acs"
      else if parts.length ≥ 3 then some "acn-acc-acg"
      else if parts.length ≥ 2 then some "acn-acc"
      else if parts.length ≥ 1 then some "acn-only"
      else none }

/-- The mode label belonging to a token count, as the claim words it (the
label of the deepest populated level; five or more tokens still fill only
four levels). -/
def modeLabel : Nat → Option String
  | 0 => none
  | 1 => some "acn-only"
  | 2 => some "acn-acc"
  | 3 => some "acn-acc-acg"
  | _ => some "acn-acc-acg-acs"

/-- How far `main` gets before dispatching. -/
inductive MainStart where
  | retryMode : MainStart
  | usage : MainStart
  | invalidScope : MainStart
  | proceed : PfidInfo → MainStart
deriving DecidableEq

/-- The prelude of `main` on the argument vector `argv` (`sys.argv[1:]`),
paired with the trace of external calls and progress-file accesses made
before dispatching.  `--retry` anywhere goes to retry mode (after the JWT
call); an empty vector prints usage and exits 1; otherwise the tokens are
parsed from the non-flag arguments and a missing level-1 identifier prints
an error and exits 1 — both exit-1 paths run before any external call or
file access; otherwise the progress file is read (acn-only mode only), the
JWT obtained, and `main_pfid` dispatched. -/
def main_argv (argv : List String) : MainStart × List String :=
  if argv.contains "--retry" then (MainStart.retryMode, ["external:get_jwt"])
  else if argv.isEmpty then (MainStart.usage, [])
  else
    let info := parse_pfid_input (argv.filter (fun a => !(strStarts "--" a)))
    match info.acn with
    | none => (MainStart.invalidScope, [])
    | some _ =>
        (MainStart.proceed info,
          (if info.mode == some "acn-only" then ["progress:read"] else []) ++
            ["external:get_jwt"])

/-! ### Concrete sample data (used by witnesses and counterexamples) -/

/-- A per-station oracle whose enable read fails on transport but whose
schedule read succeeds with a parseable conforming schedule. -/
def cex7calls : String → StationCalls := fun _ =>
  { enableRead := CallResult.fail "transport error",
    schedRead := CallResult.ok [("natsResponse", JVal.jobj [("configuration_key",
      JVal.jarr [JVal.jobj [("key", JVal.jstr "PricingSchedule"),
                            ("value", JVal.jstr "SCHED")]])])] }

/-- A per-station oracle whose schedule read fails on transport. -/
def cex7fails : String → StationCalls := fun _ =>
  { enableRead := CallResult.ok [], schedRead := CallResult.fail "boom" }

/-- A parser oracle returning one conforming entry for any input. -/
def cex7loads : String → Option (List ScheduleEntry) :=
  fun _ => some [{ t := some 0, f := some (mkRat 1 2) }]

/-- A deviating scan row under the given level-2 identifier. -/
def sampleRow (p acc : String) : ScanRow :=
  { pfid := p, acn_id := "0051", acc_id := acc, acg_id := none, acs_id := none,
    schedule := some [{ t := some 0, f := some (mkRat 1 4) }], enabled := true,
    all_correct := some false,
    mismatches := [{ t := some 0, f := some (mkRat 1 4) }] }

/-- A station record as the script first saves it, with a chosen status. -/
def sampleRec (p : String) (st : Option String) : StationRecord :=
  { pfid := p, acn_id := some "0051", acc_id := some "09", acg_id := none, acs_id := none,
    current_schedule := none, mismatches := [], update_status := st,
    rejection_reason := JVal.jnull, last_attempt := none }

/-- A site entry holding the given stations. -/
def sampleSite (stations : List StationRecord) : SiteEntry :=
  { mode := some "acn-acc", acn_id := some "0051", acc_id := some "09", acg_id := none,
    acs_id := none, saved_at := "t0", last_updated := "t0",
    correct_schedule := [{ t := some 0, f := some (mkRat 1 2) }], stations := stations }

/-! ### Theorems for claim C1 -/

/-- C1 counterexample: the present-but-empty schedule `some []` satisfies
"every entry's factor equals 0.5" vacuously and is not absent, yet
`check_schedule_values` classifies it as indeterminate (`none`), not
conforming — refuting "conforming iff every entry's factor equals 0.5"
and "indeterminate iff S is absent" as stated. -/
theorem c1_counterexample :
    (∀ e ∈ ([] : List ScheduleEntry), e.f = some (mkRat 1 2)) ∧
    (some ([] : List ScheduleEntry) ≠ (none : Option (List ScheduleEntry))) ∧
    (check_schedule_values (some []) (mkRat 1 2)).1 = none := by
  refine ⟨?_, ?_, rfl⟩
  · intro e he; cases he
  · intro h; cases h

/-- A mismatch filter is empty exactly when every factor matches. -/
theorem filter_mismatch_nil_iff (l : List ScheduleEntry) (q : Rat) :
    l.filter (fun e => e.f != some q) = [] ↔ ∀ e ∈ l, e.f = some q := by
  rw [List.filter_eq_nil_iff]
  constructor
  · intro h e he
    have := h e he
    simpa using this
  · intro h e he
    simp [h e he]

/-- C1 (amended): classification is conforming iff the schedule is present,
non-empty, and every entry's factor equals 0.5; deviating iff the schedule is
present and at least one entry's factor differs from 0.5; indeterminate iff
the schedule is absent or empty; and the mismatch list is exactly the
differing entries (each carrying its time offset and factor), in order. -/
theorem c1_classification (S : Option (List ScheduleEntry)) :
    ((check_schedule_values S (mkRat 1 2)).1 = some true ↔
      ∃ l, S = some l ∧ l ≠ [] ∧ ∀ e ∈ l, e.f = some (mkRat 1 2)) ∧
    ((check_schedule_values S (mkRat 1 2)).1 = some false ↔
      ∃ l, S = some l ∧ ∃ e ∈ l, e.f ≠ some (mkRat 1 2)) ∧
    ((check_schedule_values S (mkRat 1 2)).1 = none ↔ S = none ∨ S = some []) ∧
    ((check_schedule_values S (mkRat 1 2)).2 =
      (S.getD []).filter (fun e => e.f != some (mkRat 1 2))) := by
  cases S with
  | none =>
      simp [check_schedule_values]
  | some l =>
      cases l with
      | nil =>
          simp [check_schedule_values]
      | cons a l =>
          have hcv : check_schedule_values (some (a :: l)) (mkRat 1 2) =
              (some ((a :: l).filter (fun e => e.f != some (mkRat 1 2))).isEmpty,
                (a :: l).filter (fun e => e.f != some (mkRat 1 2))) := by
            simp [check_schedule_values]
          refine ⟨?_, ?_, ?_, ?_⟩
          · rw [hcv]
            simp only [Option.some.injEq]
            constructor
            · intro h
              refine ⟨a :: l, rfl, by simp, ?_⟩
              exact (filter_mismatch_nil_iff (a :: l) _).mp (List.isEmpty_iff.mp h)
            · rintro ⟨l', hl', -, hall⟩
              obtain rfl : a :: l = l' := hl'
              exact List.isEmpty_iff.mpr ((filter_mismatch_nil_iff (a :: l) _).mpr hall)
          · rw [hcv]
            simp only [Option.some.injEq]
            constructor
            · intro h
              have hne : (a :: l).filter (fun e => e.f != some (mkRat 1 2)) ≠ [] := by
                intro hn
                rw [hn] at h
                simp at h
              obtain ⟨e, he⟩ := List.exists_mem_of_ne_nil _ hne
              obtain ⟨hmem, hpe⟩ := List.mem_filter.mp he
              exact ⟨a :: l, rfl, e, hmem, by simpa using hpe⟩
            · rintro ⟨l', hl', e, he, hne⟩
              obtain rfl : a :: l = l' := hl'
              have hmem : e ∈ (a :: l).filter (fun e => e.f != some (mkRat 1 2)) :=
                List.mem_filter.mpr ⟨he, by simpa using hne⟩
              cases hfil : (a :: l).filter (fun e => e.f != some (mkRat 1 2)) with
              | nil => rw [hfil] at hmem; cases hmem
              | cons x xs => simp
          · rw [hcv]; simp
          · rw [hcv]; simp

/-! ### Theorems for claim C3 -/

/-- C3 counterexample: a structured response whose status label is exactly
the success token but which also carries a top-level `error` field ends with
ledger status `error`, not `accepted`: the unconditional `if "error" in
result` block re-updates the station after the `Accepted` classification. -/
theorem c3_counterexample :
    (jgetD [("natsResponse", JVal.jobj [("status", JVal.jstr "Accepted")]),
        ("error", JVal.jstr "boom")] "natsResponse" (JVal.jobj []) =
      JVal.jobj [("status", JVal.jstr "Accepted")]) ∧
    isAccepted [("status", JVal.jstr "Accepted")] = true ∧
    (finalWrite [("natsResponse", JVal.jobj [("status", JVal.jstr "Accepted")]),
        ("error", JVal.jstr "boom")]).status = "error" ∧
    (finalWrite [("natsResponse", JVal.jobj [("status", JVal.jstr "Accepted")]),
        ("error", JVal.jstr "boom")]).reason = JVal.jstr "boom" :=
  ⟨rfl, rfl, rfl, rfl⟩

/-- C3 (amended): every write attempt issues at least one ledger update and
the station is left with `finalWrite`; a call-level failure (transport error
or unparseable response) leaves status `error` with the raw error detail;
and for a response without a top-level `error` field whose `natsResponse` is
a dict: status label exactly `Accepted` leaves `accepted`, any other label
leaves `rejected` with the reason extracted in order from an `error` field,
then a `message` field, then a `reason` field, else the serialized
`natsResponse`. -/
theorem c3_outcome (result : List (String × JVal)) (d : String) :
    (attemptWrites result).getLast? = some (finalWrite result) ∧
    (attemptWrites result ≠ []) ∧
    (finalWrite (call_response (CallResult.fail d)) =
      { status := "error", reason := JVal.jstr d }) ∧
    (jlookup result "error" = none →
      ∀ fields, jgetD result "natsResponse" (JVal.jobj []) = JVal.jobj fields →
        (isAccepted fields = true →
          finalWrite result = { status := "accepted", reason := JVal.jnull }) ∧
        (isAccepted fields = false →
          (finalWrite result).status = "rejected" ∧
          (∀ v, jlookup fields "error" = some v → (finalWrite result).reason = v) ∧
          (jlookup fields "error" = none →
            ∀ v, jlookup fields "message" = some v → (finalWrite result).reason = v) ∧
          (jlookup fields "error" = none → jlookup fields "message" = none →
            ∀ v, jlookup fields "reason" = some v → (finalWrite result).reason = v) ∧
          (jlookup fields "error" = none → jlookup fields "message" = none →
            jlookup fields "reason" = none →
            (finalWrite result).reason = JVal.jstr (dumps (JVal.jobj fields))))) := by
  refine ⟨?_, ?_, rfl, ?_⟩
  · unfold attemptWrites finalWrite
    cases jlookup result "error" <;> rfl
  · unfold attemptWrites
    cases jlookup result "error" <;> simp
  · intro herr fields hf
    have hfw : finalWrite result = firstWrite result := by
      unfold finalWrite
      rw [herr]
    have hfw2 : firstWrite result =
        (if isAccepted fields then { status := "accepted", reason := JVal.jnull }
         else { status := "rejected", reason := rejectionReasonOf fields } : LedgerWrite) := by
      unfold firstWrite
      rw [hf]
    constructor
    · intro hacc
      rw [hfw, hfw2, hacc]
      simp
    · intro hacc
      rw [hfw, hfw2, hacc]
      simp only [Bool.false_eq_true, if_false]
      refine ⟨by simp, ?_, ?_, ?_, ?_⟩
      · intro v hv
        unfold rejectionReasonOf
        rw [hv]
      · intro h1 v hv
        unfold rejectionReasonOf
        rw [h1, hv]
      · intro h1 h2 v hv
        unfold rejectionReasonOf
        rw [h1, h2, hv]
      · intro h1 h2 h3
        unfold rejectionReasonOf
        rw [h1, h2, h3]

/-- C3 witness: a concrete rejected response with a `message` field, run
through the amended theorem. -/
theorem c3_witness :
    (finalWrite [("natsResponse",
        JVal.jobj [("status", JVal.jstr "Rejected"), ("message", JVal.jstr "busy")])]).status
      = "rejected" ∧
    (finalWrite [("natsResponse",
        JVal.jobj [("status", JVal.jstr "Rejected"), ("message", JVal.jstr "busy")])]).reason
      = JVal.jstr "busy" := by
  have h := (c3_outcome [("natsResponse",
      JVal.jobj [("status", JVal.jstr "Rejected"), ("message", JVal.jstr "busy")])] "x").2.2.2
      rfl [("status", JVal.jstr "Rejected"), ("message", JVal.jstr "busy")] rfl
  have h2 := h.2 rfl
  exact ⟨h2.1, h2.2.2.1 rfl (JVal.jstr "busy") rfl⟩

/-! ### Ledger lemmas and theorems for claims C4 and C10 -/

/-- Looking up a key absent from the association list yields nothing. -/
theorem lookupSite_not_mem (sites : List (String × SiteEntry)) (k : String)
    (h : k ∉ sites.map Prod.fst) : lookupSite sites k = none := by
  induction sites with
  | nil => rfl
  | cons p rest ih =>
      obtain ⟨k2, e⟩ := p
      simp only [List.map_cons, List.mem_cons, not_or] at h
      simp only [lookupSite]
      rw [if_neg]
      · exact ih h.2
      · simpa using Ne.symm h.1

/-- After erasing a key from a duplicate-free association list, looking it
up yields nothing. -/
theorem lookupSite_erase_self (sites : List (String × SiteEntry)) (k : String)
    (hnd : (sites.map Prod.fst).Nodup) :
    lookupSite (eraseSite sites k) k = none := by
  induction sites with
  | nil => rfl
  | cons p rest ih =>
      obtain ⟨k2, e⟩ := p
      simp only [List.map_cons, List.nodup_cons] at hnd
      by_cases hk : k2 = k
      · subst hk
        simp only [eraseSite, beq_self_eq_true, if_true]
        exact lookupSite_not_mem rest k2 (by simpa using hnd.1)
      · simp only [eraseSite]
        rw [if_neg (by simpa using hk)]
        simp only [lookupSite]
        rw [if_neg (by simpa using hk)]
        exact ih hnd.2

/-- Erasing one key leaves every other key's binding unchanged. -/
theorem lookupSite_erase_ne (sites : List (String × SiteEntry)) (k k2 : String)
    (h : k2 ≠ k) :
    lookupSite (eraseSite sites k) k2 = lookupSite sites k2 := by
  induction sites with
  | nil => rfl
  | cons p rest ih =>
      obtain ⟨k3, e⟩ := p
      by_cases hk : k3 = k
      · subst hk
        simp only [eraseSite, beq_self_eq_true, if_true]
        simp only [lookupSite]
        rw [if_neg (by simpa using fun hh : k3 = k2 => h (hh ▸ rfl))]
      · simp only [eraseSite]
        rw [if_neg (by simpa using hk)]
        simp only [lookupSite]
        by_cases h32 : k3 = k2
        · subst h32
          simp
        · rw [if_neg (by simpa using h32), if_neg (by simpa using h32)]
          exact ih

/-- C4: `remove_if_complete` deletes the scope entry iff it is present and
every contained station record has status `accepted` (vacuously true for an
empty station list); otherwise the ledger is returned unchanged; and the
binding of every other scope key is untouched in all cases. -/
theorem c4_remove_if_complete (ledger : Ledger) (key : String)
    (hnd : (ledger.sites.map Prod.fst).Nodup) :
    (∀ site, lookupSite ledger.sites key = some site → allAccepted site.stations = true →
      (remove_completed_site ledger key).sites = eraseSite ledger.sites key ∧
      lookupSite (remove_completed_site ledger key).sites key = none) ∧
    (∀ site, lookupSite ledger.sites key = some site → allAccepted site.stations = false →
      remove_completed_site ledger key = ledger) ∧
    (lookupSite ledger.sites key = none → remove_completed_site ledger key = ledger) ∧
    (∀ k2, k2 ≠ key →
      lookupSite (remove_completed_site ledger key).sites k2 = lookupSite ledger.sites k2) ∧
    allAccepted [] = true := by
  refine ⟨?_, ?_, ?_, ?_, rfl⟩
  · intro site hs ha
    have hr : remove_completed_site ledger key = { sites := eraseSite ledger.sites key } := by
      simp [remove_completed_site, hs, ha]
    rw [hr]
    exact ⟨rfl, lookupSite_erase_self _ _ hnd⟩
  · intro site hs ha
    simp [remove_completed_site, hs, ha]
  · intro hs
    simp [remove_completed_site, hs]
  · intro k2 hk
    cases hs : lookupSite ledger.sites key with
    | none => simp [remove_completed_site, hs]
    | some site =>
        by_cases ha : allAccepted site.stations = true
        · simp only [remove_completed_site, hs, ha, if_true]
          exact lookupSite_erase_ne _ _ _ hk
        · simp [remove_completed_site, hs, ha]

/-- C4 witness: a two-site ledger; the fully-accepted site is removed, the
other key's binding survives, and a not-all-accepted site is left alone. -/
theorem c4_witness :
    ((remove_completed_site
        { sites := [("0051-08", sampleSite [sampleRec "Y" (some "pending")]),
                    ("0051-09", sampleSite [sampleRec "X" (some "accepted")])] }
        "0051-09").sites =
      eraseSite [("0051-08", sampleSite [sampleRec "Y" (some "pending")]),
                 ("0051-09", sampleSite [sampleRec "X" (some "accepted")])] "0051-09") ∧
    (remove_completed_site
        { sites := [("0051-08", sampleSite [sampleRec "Y" (some "pending")]),
                    ("0051-09", sampleSite [sampleRec "X" (some "accepted")])] }
        "0051-08" =
      { sites := [("0051-08", sampleSite [sampleRec "Y" (some "pending")]),
                  ("0051-09", sampleSite [sampleRec "X" (some "accepted")])] }) := by
  constructor
  · exact ((c4_remove_if_complete
      { sites := [("0051-08", sampleSite [sampleRec "Y" (some "pending")]),
                  ("0051-09", sampleSite [sampleRec "X" (some "accepted")])] }
      "0051-09" (by decide)).1 (sampleSite [sampleRec "X" (some "accepted")]) rfl rfl).1
  · exact (c4_remove_if_complete
      { sites := [("0051-08", sampleSite [sampleRec "Y" (some "pending")]),
                  ("0051-09", sampleSite [sampleRec "X" (some "accepted")])] }
      "0051-08" (by decide)).2.1 (sampleSite [sampleRec "Y" (some "pending")]) rfl rfl

/-! ### Lemmas for claim C10 -/

/-- `firstIdxP` finds nothing iff no element satisfies the predicate. -/
theorem firstIdxP_none_iff {α : Type} (p : α → Bool) (l : List α) :
    firstIdxP p l = none ↔ l.any p = false := by
  induction l with
  | nil => simp [firstIdxP]
  | cons a rest ih =>
      by_cases h : p a = true
      · simp [firstIdxP, h]
      · have h2 : p a = false := by simpa using h
        simp [firstIdxP, h2, Option.map_eq_none', ih]

/-- The station update fails exactly when no record's identifier matches. -/
theorem updateFirstMatch_none_iff (pfid : String) (w : LedgerWrite) (now : String)
    (stations : List StationRecord) :
    updateFirstMatch pfid w now stations = none ↔ firstRecIdx stations pfid = none := by
  induction stations with
  | nil => simp [updateFirstMatch, firstRecIdx, firstIdxP]
  | cons r rest ih =>
      by_cases hp : r.pfid = pfid
      · have hb : (r.pfid == pfid) = true := by simpa using hp
        simp [updateFirstMatch, firstRecIdx, firstIdxP, hb]
      · have hb : (r.pfid == pfid) = false := by simpa using hp
        simp only [updateFirstMatch, firstRecIdx, firstIdxP, hb, Bool.false_eq_true,
          if_false, Option.map_eq_none']
        exact ih

/-- When a record matches, the station update rewrites exactly the first
matching record, leaving every other list position unchanged. -/
theorem updateFirstMatch_eq_set (pfid : String) (w : LedgerWrite) (now : String)
    (stations : List StationRecord) (j : Nat) (h : firstRecIdx stations pfid = some j) :
    ∃ rec, stations[j]? = some rec ∧ rec.pfid = pfid ∧
      updateFirstMatch pfid w now stations = some (stations.set j (setWrite rec w now)) := by
  induction stations generalizing j with
  | nil => simp [firstRecIdx, firstIdxP] at h
  | cons r rest ih =>
      simp only [firstRecIdx, firstIdxP] at h
      by_cases hp : r.pfid = pfid
      · have hb : (r.pfid == pfid) = true := by simpa using hp
        simp only [hb, if_true] at h
        obtain rfl : 0 = j := by simpa using h
        refine ⟨r, by simp, hp, ?_⟩
        simp [updateFirstMatch, hb]
      · have hb : (r.pfid == pfid) = false := by simpa using hp
        simp only [hb, Bool.false_eq_true, if_false] at h
        cases hj : firstIdxP (fun r => r.pfid == pfid) rest with
        | none => simp [hj] at h
        | some j' =>
            simp only [hj, Option.map_some'] at h
            obtain rfl : j' + 1 = j := by simpa using h
            obtain ⟨rec, h1, h2, h3⟩ := ih j' hj
            refine ⟨rec, by simpa using h1, h2, ?_⟩
            simp [updateFirstMatch, hb, h3, List.set_cons_succ]

/-- Full characterisation of the scope-less station search over the site
list: nothing happens when no site contains the identifier; otherwise
exactly the first matching record of the first matching site is rewritten
(with the site's `last_updated` refreshed) and everything else is kept. -/
theorem updateSitesAll_spec (sites : List (String × SiteEntry)) (pfid : String)
    (w : LedgerWrite) (now : String) :
    (firstSiteIdx sites pfid = none → updateSitesAll sites pfid w now = none) ∧
    (∀ i, firstSiteIdx sites pfid = some i →
      ∃ k site j rec, sites[i]? = some (k, site) ∧
        firstRecIdx site.stations pfid = some j ∧
        site.stations[j]? = some rec ∧ rec.pfid = pfid ∧
        updateSitesAll sites pfid w now =
          some (sites.set i (k, siteUpdated site j rec w now))) := by
  induction sites with
  | nil =>
      refine ⟨fun _ => rfl, fun i h => ?_⟩
      simp [firstSiteIdx, firstIdxP] at h
  | cons p rest ih =>
      obtain ⟨k0, site0⟩ := p
      constructor
      · intro h
        simp only [firstSiteIdx, firstIdxP] at h
        by_cases hb : (site0.stations.any fun r => r.pfid == pfid) = true
        · simp [hb] at h
        · have hb2 : (site0.stations.any fun r => r.pfid == pfid) = false := by
            simpa using hb
          simp only [hb2, Bool.false_eq_true, if_false, Option.map_eq_none'] at h
          have hnone : updateSiteEntry site0 pfid w now = none := by
            unfold updateSiteEntry
            rw [Option.map_eq_none', updateFirstMatch_none_iff]
            unfold firstRecIdx
            rw [firstIdxP_none_iff]
            exact hb2
          simp only [updateSitesAll, hnone]
          rw [ih.1 h]
          rfl
      · intro i h
        simp only [firstSiteIdx, firstIdxP] at h
        by_cases hb : (site0.stations.any fun r => r.pfid == pfid) = true
        · simp only [hb, if_true] at h
          obtain rfl : 0 = i := by simpa using h
          cases hj : firstRecIdx site0.stations pfid with
          | none =>
              exfalso
              have hj2 : firstIdxP (fun r : StationRecord => r.pfid == pfid)
                  site0.stations = none := hj
              have hanyf := (firstIdxP_none_iff
                  (fun r : StationRecord => r.pfid == pfid) site0.stations).mp hj2
              rw [hanyf] at hb
              cases hb
          | some j =>
              obtain ⟨rec, h1, h2, h3⟩ := updateFirstMatch_eq_set pfid w now site0.stations j hj
              refine ⟨k0, site0, j, rec, by simp, hj, h1, h2, ?_⟩
              simp only [updateSitesAll, updateSiteEntry, h3, Option.map_some']
              simp [siteUpdated]
        · have hb2 : (site0.stations.any fun r => r.pfid == pfid) = false := by
            simpa using hb
          simp only [hb2, Bool.false_eq_true, if_false] at h
          cases hi : firstIdxP (fun q => q.2.stations.any fun r => r.pfid == pfid) rest with
          | none => simp [hi] at h
          | some i' =>
              simp only [hi, Option.map_some'] at h
              obtain rfl : i' + 1 = i := by simpa using h
              obtain ⟨k, site, j, rec, h1, h2, h3, h4, h5⟩ := ih.2 i' hi
              refine ⟨k, site, j, rec, by simpa using h1, h2, h3, h4, ?_⟩
              have hnone : updateSiteEntry site0 pfid w now = none := by
                unfold updateSiteEntry
                rw [Option.map_eq_none', updateFirstMatch_none_iff]
                unfold firstRecIdx
                rw [firstIdxP_none_iff]
                exact hb2
              simp only [updateSitesAll, hnone, h5, Option.map_some']
              simp [List.set_cons_succ]

/-- C10: a status update addressed by station identifier alone touches at
most one station record — the first matching record (in site-dict iteration
order, then station order) has its status, detail and last-attempt set and
its site's `last_updated` refreshed, every other position is structurally
unchanged (a `List.set` at one site index and one station index), and the
file is re-written; when no record anywhere matches, the ledger is returned
unchanged and the file is not written (second component `false`), with no
error signaled. -/
theorem c10_update_by_pfid (ledger : Ledger) (pfid : String) (w : LedgerWrite) (now : String) :
    (firstSiteIdx ledger.sites pfid = none →
      update_odd_ones_status ledger pfid w none now = (ledger, false)) ∧
    (∀ i, firstSiteIdx ledger.sites pfid = some i →
      ∃ k site j rec,
        ledger.sites[i]? = some (k, site) ∧
        firstRecIdx site.stations pfid = some j ∧
        site.stations[j]? = some rec ∧ rec.pfid = pfid ∧
        (update_odd_ones_status ledger pfid w none now).2 = true ∧
        (update_odd_ones_status ledger pfid w none now).1.sites =
          ledger.sites.set i (k, siteUpdated site j rec w now)) := by
  have hspec := updateSitesAll_spec ledger.sites pfid w now
  constructor
  · intro h
    unfold update_odd_ones_status
    rw [hspec.1 h]
  · intro i h
    obtain ⟨k, site, j, rec, h1, h2, h3, h4, h5⟩ := hspec.2 i h
    refine ⟨k, site, j, rec, h1, h2, h3, h4, ?_, ?_⟩
    · unfold update_odd_ones_status
      rw [h5]
    · unfold update_odd_ones_status
      rw [h5]

/-- C10 witness: the identifier `X` is found in the second site's second
record; the update reports a file write. -/
theorem c10_witness :
    (update_odd_ones_status
      { sites := [("0051-08", sampleSite [sampleRec "Y" (some "pending")]),
                  ("0051-09", sampleSite [sampleRec "Y" (some "accepted"),
                                          sampleRec "X" (some "pending")])] }
      "X" { status := "accepted", reason := JVal.jnull } none "t1").2 = true := by
  have h := (c10_update_by_pfid
      { sites := [("0051-08", sampleSite [sampleRec "Y" (some "pending")]),
                  ("0051-09", sampleSite [sampleRec "Y" (some "accepted"),
                                          sampleRec "X" (some "pending")])] }
      "X" { status := "accepted", reason := JVal.jnull } "t1").2 1 (by rfl)
  obtain ⟨k, site, j, rec, _, _, _, _, h5, _⟩ := h
  exact h5

/-! ### Lemmas and theorems for claim C9 -/

/-- Dict assignment followed by lookup of the same key yields the value. -/
theorem lookupSite_setSite_self (sites : List (String × SiteEntry)) (k : String)
    (v : SiteEntry) : lookupSite (setSite sites k v) k = some v := by
  induction sites with
  | nil => simp [setSite, lookupSite]
  | cons p rest ih =>
      obtain ⟨k2, e⟩ := p
      by_cases hk : k2 = k
      · subst hk
        simp [setSite, lookupSite]
      · simp only [setSite]
        rw [if_neg (by simpa using hk)]
        simp only [lookupSite]
        rw [if_neg (by simpa using hk)]
        exact ih

/-- Membership through the `pyset` fold. -/
theorem mem_pyset_aux (l : List String) (acc : List String) (a : String) :
    (a ∈ l.foldl (fun acc x => if acc.contains x then acc else acc ++ [x]) acc) ↔
      a ∈ acc ∨ a ∈ l := by
  induction l generalizing acc with
  | nil => simp
  | cons x rest ih =>
      simp only [List.foldl_cons]
      rw [ih]
      by_cases hc : acc.contains x = true
      · simp only [hc, if_true]
        have hx : x ∈ acc := by simpa using hc
        constructor
        · rintro (h | h)
          · exact Or.inl h
          · exact Or.inr (List.mem_cons_of_mem _ h)
        · rintro (h | h)
          · exact Or.inl h
          · rcases List.mem_cons.mp h with rfl | h2
            · exact Or.inl hx
            · exact Or.inr h2
      · have hc2 : acc.contains x = false := by simpa using hc
        simp only [hc2, Bool.false_eq_true, if_false]
        constructor
        · rintro (h | h)
          · rcases List.mem_append.mp h with h2 | h2
            · exact Or.inl h2
            · simp only [List.mem_singleton] at h2
              subst h2
              exact Or.inr (List.mem_cons_self _ _)
          · exact Or.inr (List.mem_cons_of_mem _ h)
        · rintro (h | h)
          · exact Or.inl (List.mem_append.mpr (Or.inl h))
          · rcases List.mem_cons.mp h with rfl | h2
            · exact Or.inl (List.mem_append.mpr (Or.inr (by simp)))
            · exact Or.inr h2

/-- `pyset` has the same members as its input. -/
theorem mem_pyset (l : List String) (a : String) : a ∈ pyset l ↔ a ∈ l := by
  unfold pyset
  rw [mem_pyset_aux]
  simp

/-- Folding further constant elements onto a singleton set keeps it. -/
theorem pyset_aux_const (l : List String) (c : String) (hall : ∀ x ∈ l, x = c) :
    l.foldl (fun acc x => if acc.contains x then acc else acc ++ [x]) [c] = [c] := by
  induction l with
  | nil => rfl
  | cons x rest ih =>
      have hx : x = c := hall x (by simp)
      subst hx
      simp only [List.foldl_cons]
      have hc : ([x].contains x) = true := by simp
      simp only [hc, if_true]
      exact ih (fun y hy => hall y (by simp [hy]))

/-- A non-empty constant list collapses to a singleton set. -/
theorem pyset_all_eq (l : List String) (c : String) (hne : l ≠ [])
    (hall : ∀ x ∈ l, x = c) : pyset l = [c] := by
  obtain ⟨x, rest, rfl⟩ := List.exists_cons_of_ne_nil hne
  have hx : x = c := hall x (by simp)
  subst hx
  unfold pyset
  simp only [List.foldl_cons]
  have h1 : (([] : List String).contains x) = false := rfl
  simp only [h1, Bool.false_eq_true, if_false, List.nil_append]
  exact pyset_aux_const rest x (fun y hy => hall y (by simp [hy]))

/-- Two distinct members rule out a singleton set. -/
theorem pyset_two_distinct (l : List String) (x y : String) (hx : x ∈ l) (hy : y ∈ l)
    (hxy : x ≠ y) : (pyset l).length ≠ 1 := by
  intro hlen
  have hx2 : x ∈ pyset l := (mem_pyset l x).mpr hx
  have hy2 : y ∈ pyset l := (mem_pyset l y).mpr hy
  cases hp : pyset l with
  | nil => rw [hp] at hx2; cases hx2
  | cons z zs =>
      rw [hp] at hlen hx2 hy2
      cases zs with
      | nil =>
          simp only [List.mem_singleton] at hx2 hy2
          exact hxy (hx2.trans hy2.symm)
      | cons z2 zs2 => simp at hlen

/-- C9: saving a non-empty deviation batch with no explicit level-2
identifier and no mode infers the ledger scope key from the batch — a batch
whose stations all carry the same level-2 identifier `c` is stored under
`level1-c` with mode `acn-acc`; a batch spanning two or more distinct
level-2 identifiers is stored under the level-1 identifier alone with mode
`acn-only`.  In both cases the entry is upserted (the batch is never
rejected) and no majority vote occurs: any two distinct values force the
level-1 key. -/
theorem c9_scope_inference (ledger : Ledger) (odd_ones : List ScanRow)
    (sched : List ScheduleEntry) (a : String) (now : String)
    (hne : odd_ones ≠ []) :
    (∀ c, (∀ r ∈ odd_ones, r.acc_id = c) →
      ∃ e, lookupSite
          (save_odd_ones_out ledger odd_ones sched (some a) none none none none now).sites
          (a ++ "-" ++ c) = some e ∧
        e.mode = some "acn-acc" ∧ e.acc_id = some c ∧ e.acn_id = some a ∧
        e.stations = odd_ones.map rowToRecord ∧ e.correct_schedule = sched) ∧
    (∀ r1 ∈ odd_ones, ∀ r2 ∈ odd_ones, r1.acc_id ≠ r2.acc_id →
      ∃ e, lookupSite
          (save_odd_ones_out ledger odd_ones sched (some a) none none none none now).sites
          a = some e ∧
        e.mode = some "acn-only" ∧ e.acc_id = none ∧ e.acn_id = some a ∧
        e.stations = odd_ones.map rowToRecord ∧ e.correct_schedule = sched) := by
  obtain ⟨r0, rest, rfl⟩ := List.exists_cons_of_ne_nil hne
  constructor
  · intro c hall
    have hmap : ∀ x ∈ (r0 :: rest).map (fun r => r.acc_id), x = c := by
      intro x hx
      obtain ⟨r, hr, rfl⟩ := List.mem_map.mp hx
      exact hall r hr
    have hp : pyset ((r0 :: rest).map (fun r => r.acc_id)) = [c] :=
      pyset_all_eq _ c (by simp) hmap
    simp only [List.map_cons] at hp
    have hinf : inferAccMode none none (r0 :: rest) = (some c, some "acn-acc") := by
      simp [inferAccMode, hp]
    have hsave : save_odd_ones_out ledger (r0 :: rest) sched (some a) none none none none now =
        { sites := setSite ledger.sites (a ++ "-" ++ c)
            (savedEntry sched (r0 :: rest) (some a) (some c) none none (some "acn-acc") now) } := by
      simp [save_odd_ones_out, hinf, inferAcnId, get_site_key, pyFmt]
    rw [hsave]
    refine ⟨savedEntry sched (r0 :: rest) (some a) (some c) none none (some "acn-acc") now,
      lookupSite_setSite_self _ _ _, rfl, rfl, rfl, rfl, rfl⟩
  · intro r1 h1 r2 h2 h12
    have hlen : (pyset ((r0 :: rest).map (fun r => r.acc_id))).length ≠ 1 :=
      pyset_two_distinct _ r1.acc_id r2.acc_id
        (List.mem_map.mpr ⟨r1, h1, rfl⟩) (List.mem_map.mpr ⟨r2, h2, rfl⟩) h12
    simp only [List.map_cons] at hlen
    have hinf : inferAccMode none none (r0 :: rest) = (none, some "acn-only") := by
      simp [inferAccMode, hlen]
    have hsave : save_odd_ones_out ledger (r0 :: rest) sched (some a) none none none none now =
        { sites := setSite ledger.sites a
            (savedEntry sched (r0 :: rest) (some a) none none none (some "acn-only") now) } := by
      simp [save_odd_ones_out, hinf, inferAcnId, get_site_key, pyFmt]
    rw [hsave]
    refine ⟨savedEntry sched (r0 :: rest) (some a) none none none (some "acn-only") now,
      lookupSite_setSite_self _ _ _, rfl, rfl, rfl, rfl, rfl⟩

/-- C9 witness: a uniform two-station batch lands under `0051-09` with mode
`acn-acc`; a mixed batch lands under `0051` with mode `acn-only`. -/
theorem c9_witness :
    (∃ e, lookupSite
        (save_odd_ones_out { sites := [] }
          [sampleRow "0051-09-01-01" "09", sampleRow "0051-09-01-02" "09"]
          [{ t := some 0, f := some (mkRat 1 2) }]
          (some "0051") none none none none "t1").sites
        ("0051" ++ "-" ++ "09") = some e ∧
      e.mode = some "acn-acc" ∧ e.acc_id = some "09" ∧ e.acn_id = some "0051" ∧
      e.stations = [sampleRow "0051-09-01-01" "09", sampleRow "0051-09-01-02" "09"].map rowToRecord ∧
      e.correct_schedule = [{ t := some 0, f := some (mkRat 1 2) }]) ∧
    (∃ e, lookupSite
        (save_odd_ones_out { sites := [] }
          [sampleRow "0051-09-01-01" "09", sampleRow "0051-12-01-01" "12"]
          [{ t := some 0, f := some (mkRat 1 2) }]
          (some "0051") none none none none "t1").sites
        "0051" = some e ∧
      e.mode = some "acn-only" ∧ e.acc_id = none ∧ e.acn_id = some "0051" ∧
      e.stations = [sampleRow "0051-09-01-01" "09", sampleRow "0051-12-01-01" "12"].map rowToRecord ∧
      e.correct_schedule = [{ t := some 0, f := some (mkRat 1 2) }]) := by
  constructor
  · exact (c9_scope_inference { sites := [] }
      [sampleRow "0051-09-01-01" "09", sampleRow "0051-09-01-02" "09"]
      [{ t := some 0, f := some (mkRat 1 2) }] "0051" "t1" (List.cons_ne_nil _ _)).1 "09"
      (by intro r hr; fin_cases hr <;> rfl)
  · exact (c9_scope_inference { sites := [] }
      [sampleRow "0051-09-01-01" "09", sampleRow "0051-12-01-01" "12"]
      [{ t := some 0, f := some (mkRat 1 2) }] "0051" "t1" (List.cons_ne_nil _ _)).2
      (sampleRow "0051-09-01-01" "09") (by simp)
      (sampleRow "0051-12-01-01" "12") (by simp) (by decide)

/-! ### Lemmas for claim C5: the keyed status update -/

/-- Two consecutive dict assignments to the same key keep only the last. -/
theorem setSite_setSite (sites : List (String × SiteEntry)) (k : String)
    (v1 v2 : SiteEntry) : setSite (setSite sites k v1) k v2 = setSite sites k v2 := by
  induction sites with
  | nil => simp [setSite]
  | cons p rest ih =>
      obtain ⟨k2, e⟩ := p
      by_cases hk : k2 = k
      · subst hk
        simp [setSite]
      · simp only [setSite]
        rw [if_neg (by simpa using hk)]
        simp only [setSite]
        rw [if_neg (by simpa using hk), if_neg (by simpa using hk)]
        rw [ih]

/-- The keyed search of `update_odd_ones_status` is: look the site up, try
the station update inside it, and write the updated entry back under the
same key. -/
theorem updateSitesKeyed_eq (sites : List (String × SiteEntry)) (k pfid : String)
    (w : LedgerWrite) (now : String) :
    updateSitesKeyed sites k pfid w now =
      (match lookupSite sites k with
       | none => none
       | some site => (updateSiteEntry site pfid w now).map (fun s2 => setSite sites k s2)) := by
  induction sites with
  | nil => rfl
  | cons p rest ih =>
      obtain ⟨k2, site⟩ := p
      by_cases hk : k2 = k
      · subst hk
        simp only [updateSitesKeyed, lookupSite, setSite, beq_self_eq_true, if_true]
      · have hset : ∀ s2 : SiteEntry,
            setSite ((k2, site) :: rest) k s2 = (k2, site) :: setSite rest k s2 := by
          intro s2
          simp only [setSite]
          rw [if_neg (by simpa using hk)]
        simp only [updateSitesKeyed, lookupSite]
        rw [if_neg (by simpa using hk), if_neg (by simpa using hk)]
        rw [ih]
        simp only [hset]
        cases lookupSite rest k with
        | none => rfl
        | some site2 =>
            show Option.map (fun l => (k2, site) :: l)
                (Option.map (fun s2 => setSite rest k s2) (updateSiteEntry site2 pfid w now)) =
              Option.map (fun s2 => (k2, site) :: setSite rest k s2)
                (updateSiteEntry site2 pfid w now)
            rw [Option.map_map]
            rfl

/-- Mapping the conditional rewrite over records none of which match is the
identity. -/
theorem map_write_noop (pfid : String) (w : LedgerWrite) (now : String)
    (l : List StationRecord) (h : ∀ r ∈ l, r.pfid ≠ pfid) :
    l.map (fun r => if r.pfid == pfid then setWrite r w now else r) = l := by
  induction l with
  | nil => rfl
  | cons r rest ih =>
      simp only [List.map_cons]
      rw [if_neg (by simpa using h r (by simp))]
      rw [ih (fun r2 h2 => h r2 (by simp [h2]))]

/-- With duplicate-free identifiers, updating the first matching record is
the same as updating every matching record — a map over the list. -/
theorem updateFirstMatch_map (pfid : String) (w : LedgerWrite) (now : String)
    (stations : List StationRecord)
    (hnd : (stations.map (fun r => r.pfid)).Nodup)
    (hmem : stations.any (fun r => r.pfid == pfid) = true) :
    updateFirstMatch pfid w now stations =
      some (stations.map (fun r => if r.pfid == pfid then setWrite r w now else r)) := by
  induction stations with
  | nil => simp at hmem
  | cons r rest ih =>
      simp only [List.map_cons, List.nodup_cons] at hnd
      by_cases hp : r.pfid = pfid
      · have hb : (r.pfid == pfid) = true := by simpa using hp
        simp only [updateFirstMatch, hb, if_true, List.map_cons]
        have hrest : rest.map (fun r => if r.pfid == pfid then setWrite r w now else r) = rest := by
          apply map_write_noop
          intro r2 h2 hcontra
          exact hnd.1 (List.mem_map.mpr ⟨r2, h2, by rw [hcontra, hp]⟩)
        rw [hrest]
      · have hb : (r.pfid == pfid) = false := by simpa using hp
        have hmem2 : rest.any (fun r => r.pfid == pfid) = true := by
          simp only [List.any_cons, hb, Bool.false_or] at hmem
          exact hmem
        simp only [updateFirstMatch, hb, Bool.false_eq_true, if_false, List.map_cons]
        rw [ih hnd.2 hmem2]
        rfl

/-- A keyed status update on a present site containing the identifier:
the entry is written back with the conditional rewrite applied and
`last_updated` refreshed. -/
theorem update_keyed_found (L : Ledger) (k pfid : String) (w : LedgerWrite) (now : String)
    (site : SiteEntry) (hs : lookupSite L.sites k = some site)
    (hnd : (site.stations.map (fun r => r.pfid)).Nodup)
    (hmem : site.stations.any (fun r => r.pfid == pfid) = true) :
    (update_odd_ones_status L pfid w (some k) now).1 =
      { sites := setSite L.sites k (siteWithStations site
          (site.stations.map (fun r => if r.pfid == pfid then setWrite r w now else r)) now) } := by
  have h2 : updateFirstMatch pfid w now site.stations =
      some (site.stations.map (fun r => if r.pfid == pfid then setWrite r w now else r)) :=
    updateFirstMatch_map pfid w now site.stations hnd hmem
  have h1 : updateSitesKeyed L.sites k pfid w now =
      some (setSite L.sites k (siteWithStations site
        (site.stations.map (fun r => if r.pfid == pfid then setWrite r w now else r)) now)) := by
    rw [updateSitesKeyed_eq, hs]
    show (updateSiteEntry site pfid w now).map (fun s2 => setSite L.sites k s2) = _
    unfold updateSiteEntry
    rw [h2]
    rfl
  unfold update_odd_ones_status
  show (match updateSitesKeyed L.sites k pfid w now with
        | some sites2 => (({ sites := sites2 } : Ledger), true)
        | none => (L, false)).1 = _
  rw [h1]

/-- Applying two conditional rewrites for the same identifier keeps only
the second one (every field set by `setWrite` is overwritten). -/
theorem map_write_twice (pfid : String) (w1 w2 : LedgerWrite) (now : String)
    (l : List StationRecord) :
    (l.map (fun r => if r.pfid == pfid then setWrite r w1 now else r)).map
      (fun r => if r.pfid == pfid then setWrite r w2 now else r) =
    l.map (fun r => if r.pfid == pfid then setWrite r w2 now else r) := by
  rw [List.map_map]
  apply List.map_congr_left
  intro r _
  by_cases hp : (r.pfid == pfid) = true
  · simp only [Function.comp, hp, if_true]
    have hpf : (setWrite r w1 now).pfid = r.pfid := rfl
    rw [hpf, hp]
    rfl
  · have hp2 : (r.pfid == pfid) = false := by simpa using hp
    simp only [Function.comp, hp2, Bool.false_eq_true, if_false]

/-- The conditional rewrite does not change the identifier column. -/
theorem map_write_pfids (pfid : String) (w : LedgerWrite) (now : String)
    (l : List StationRecord) :
    (l.map (fun r => if r.pfid == pfid then setWrite r w now else r)).map
      (fun r => r.pfid) = l.map (fun r => r.pfid) := by
  rw [List.map_map]
  apply List.map_congr_left
  intro r _
  by_cases hp : (r.pfid == pfid) = true
  · simp only [Function.comp, hp, if_true]
    rfl
  · have hp2 : (r.pfid == pfid) = false := by simpa using hp
    simp only [Function.comp, hp2, Bool.false_eq_true, if_false]

/-- The conditional rewrite does not change which identifiers occur. -/
theorem any_pfid_map (pfid : String) (w : LedgerWrite) (now : String)
    (l : List StationRecord) (q : String) :
    (l.map (fun r => if r.pfid == pfid then setWrite r w now else r)).any
      (fun r => r.pfid == q) = l.any (fun r => r.pfid == q) := by
  induction l with
  | nil => rfl
  | cons r rest ih =>
      simp only [List.map_cons, List.any_cons, ih]
      by_cases hp : (r.pfid == pfid) = true
      · simp only [hp, if_true]
        have hpf : (setWrite r w now).pfid = r.pfid := rfl
        rw [hpf]
      · have hp2 : (r.pfid == pfid) = false := by simpa using hp
        simp only [hp2, Bool.false_eq_true, if_false]

/-- All ledger updates of one attempt, together: the station ends with the
attempt's final status (`finalWrite`), the site's `last_updated` is `now`,
and nothing else of the ledger changes. -/
theorem applyWritesFor_eq (L : Ledger) (k pfid : String)
    (res : List (String × JVal)) (now : String) (site : SiteEntry)
    (hs : lookupSite L.sites k = some site)
    (hnd : (site.stations.map (fun r => r.pfid)).Nodup)
    (hmem : site.stations.any (fun r => r.pfid == pfid) = true) :
    applyWritesFor L k pfid res now =
      { sites := setSite L.sites k (siteWithStations site
          (site.stations.map (fun r =>
            if r.pfid == pfid then setWrite r (finalWrite res) now else r)) now) } := by
  unfold applyWritesFor attemptWrites
  cases herr : jlookup res "error" with
  | none =>
      have hfin : firstWrite res = finalWrite res := by
        unfold finalWrite
        rw [herr]
      simp only [List.foldl_cons, List.foldl_nil]
      rw [hfin]
      exact update_keyed_found L k pfid (finalWrite res) now site hs hnd hmem
  | some v =>
      simp only [List.foldl_cons, List.foldl_nil]
      have hstep1 := update_keyed_found L k pfid (firstWrite res) now site hs hnd hmem
      rw [hstep1]
      have hfin : ({ status := "error", reason := v } : LedgerWrite) = finalWrite res := by
        unfold finalWrite
        rw [herr]
      rw [hfin]
      set L1 : Ledger := { sites := setSite L.sites k (siteWithStations site
        (site.stations.map (fun r =>
          if r.pfid == pfid then setWrite r (firstWrite res) now else r)) now) } with hL1
      have hs1 : lookupSite L1.sites k = some (siteWithStations site
          (site.stations.map (fun r =>
            if r.pfid == pfid then setWrite r (firstWrite res) now else r)) now) :=
        lookupSite_setSite_self _ _ _
      have hnd1 : ((siteWithStations site
          (site.stations.map (fun r =>
            if r.pfid == pfid then setWrite r (firstWrite res) now else r)) now).stations.map
          (fun r => r.pfid)).Nodup := by
        show ((site.stations.map (fun r =>
          if r.pfid == pfid then setWrite r (firstWrite res) now else r)).map
          (fun r => r.pfid)).Nodup
        rw [map_write_pfids]
        exact hnd
      have hmem1 : (siteWithStations site
          (site.stations.map (fun r =>
            if r.pfid == pfid then setWrite r (firstWrite res) now else r)) now).stations.any
          (fun r => r.pfid == pfid) = true := by
        show ((site.stations.map (fun r =>
          if r.pfid == pfid then setWrite r (firstWrite res) now else r)).any
          (fun r => r.pfid == pfid)) = true
        rw [any_pfid_map]
        exact hmem
      rw [update_keyed_found L1 k pfid (finalWrite res) now _ hs1 hnd1 hmem1]
      show ({ sites := setSite L1.sites k _ } : Ledger) = _
      rw [hL1]
      show ({ sites := setSite (setSite L.sites k _) k _ } : Ledger) = _
      rw [setSite_setSite]
      have hsts : ((siteWithStations site
          (site.stations.map (fun r =>
            if r.pfid == pfid then setWrite r (firstWrite res) now else r)) now).stations.map
          (fun r => if r.pfid == pfid then setWrite r (finalWrite res) now else r)) =
          site.stations.map (fun r =>
            if r.pfid == pfid then setWrite r (finalWrite res) now else r) := by
        show ((site.stations.map (fun r =>
          if r.pfid == pfid then setWrite r (firstWrite res) now else r)).map
          (fun r => if r.pfid == pfid then setWrite r (finalWrite res) now else r)) = _
        rw [map_write_twice]
      rw [hsts]
      rfl

/-- A membership list of retry identifiers rewrites each record at most
once: the whole retry loop is one conditional map over the station list. -/
theorem stationsAfter_map (outcome : String → CallResult) (now : String)
    (items : List StationRecord) (stations : List StationRecord)
    (hnd : (items.map (fun s => s.pfid)).Nodup) :
    stationsAfter outcome now items stations =
      stations.map (fun r =>
        if (items.map (fun s => s.pfid)).contains r.pfid
        then setWrite r (finalWrite (call_response (outcome r.pfid))) now else r) := by
  induction items generalizing stations with
  | nil =>
      show stations = _
      symm
      have : ∀ r ∈ stations,
          (if (([] : List String).contains r.pfid)
           then setWrite r (finalWrite (call_response (outcome r.pfid))) now else r) = r := by
        intro r _
        rfl
      calc stations.map _ = stations.map id := List.map_congr_left this
      _ = stations := List.map_id stations
  | cons s items ih =>
      simp only [List.map_cons, List.nodup_cons] at hnd
      show stationsAfter outcome now items (stations.map (writeBack outcome now s.pfid)) = _
      rw [ih _ hnd.2, List.map_map]
      apply List.map_congr_left
      intro r _
      by_cases hp : r.pfid = s.pfid
      · have hb : (r.pfid == s.pfid) = true := by simpa using hp
        have hnotin : ((items.map (fun s => s.pfid)).contains r.pfid) = false := by
          rw [hp]
          simpa using hnd.1
        have hin : (((s :: items).map (fun s => s.pfid)).contains r.pfid) = true := by
          simp [hp]
        simp only [Function.comp, writeBack, hb, if_true, List.map_cons, hin]
        have hpf : (setWrite r (finalWrite (call_response (outcome s.pfid))) now).pfid
            = r.pfid := rfl
        rw [hpf, hnotin]
        simp only [Bool.false_eq_true, if_false]
        rw [hp]
        simp
      · have hb : (r.pfid == s.pfid) = false := by simpa using hp
        have hcons : (((s :: items).map (fun s => s.pfid)).contains r.pfid) =
            ((items.map (fun s => s.pfid)).contains r.pfid) := by
          simp only [List.map_cons, List.contains_cons]
          rw [show (r.pfid == s.pfid) = false from hb]
          simp
        simp only [Function.comp, writeBack, hb, Bool.false_eq_true, if_false, hcons]

/-- Membership in the retry list is membership with a retriable status. -/
theorem mem_toRetryOf (stations : List StationRecord) (s : StationRecord) :
    s ∈ toRetryOf stations ↔ s ∈ stations ∧ retrySet s = true := by
  simp only [toRetryOf, statusFilter, retrySet, List.mem_append, List.mem_filter,
    Bool.or_eq_true]
  tauto

/-- Duplicate-free identifiers identify records. -/
theorem pfid_inj (stations : List StationRecord)
    (hnd : (stations.map (fun r => r.pfid)).Nodup) (r s : StationRecord)
    (hr : r ∈ stations) (hs : s ∈ stations) (h : r.pfid = s.pfid) : r = s :=
  List.inj_on_of_nodup_map hnd hr hs h

/-- Status filters for different statuses carry disjoint identifiers. -/
theorem filter_status_disjoint (stations : List StationRecord)
    (hnd : (stations.map (fun r => r.pfid)).Nodup) (st1 st2 : String) (hne : st1 ≠ st2) :
    List.Disjoint ((statusFilter stations st1).map (fun s => s.pfid))
      ((statusFilter stations st2).map (fun s => s.pfid)) := by
  intro a h1 h2
  obtain ⟨s1, hs1, rfl⟩ := List.mem_map.mp h1
  obtain ⟨s2, hs2, hpf⟩ := List.mem_map.mp h2
  obtain ⟨hs1m, hp1⟩ := List.mem_filter.mp hs1
  obtain ⟨hs2m, hp2⟩ := List.mem_filter.mp hs2
  have heq : s1 = s2 := pfid_inj stations hnd s1 s2 hs1m hs2m hpf.symm
  subst heq
  have e1 : s1.update_status = some st1 := by simpa using hp1
  have e2 : s1.update_status = some st2 := by simpa using hp2
  exact hne (Option.some_injective _ (e1.symm.trans e2))

/-- The retry list carries duplicate-free identifiers when the station
list does. -/
theorem toRetry_pfids_nodup (stations : List StationRecord)
    (hnd : (stations.map (fun r => r.pfid)).Nodup) :
    ((toRetryOf stations).map (fun s => s.pfid)).Nodup := by
  have hndf : ∀ st : String, ((statusFilter stations st).map (fun s => s.pfid)).Nodup := by
    intro st
    exact List.Nodup.sublist (List.Sublist.map _ (List.filter_sublist stations)) hnd
  simp only [toRetryOf, List.map_append]
  rw [List.nodup_append, List.nodup_append]
  refine ⟨⟨hndf _, hndf _, filter_status_disjoint stations hnd _ _ (by decide)⟩, hndf _, ?_⟩
  rw [List.disjoint_append_left]
  exact ⟨filter_status_disjoint stations hnd _ _ (by decide),
    filter_status_disjoint stations hnd _ _ (by decide)⟩

/-- Among duplicate-free stations, carrying a retried identifier is the
same as having a retriable status. -/
theorem contains_toRetry_iff (stations : List StationRecord)
    (hnd : (stations.map (fun r => r.pfid)).Nodup) (r : StationRecord)
    (hr : r ∈ stations) :
    ((toRetryOf stations).map (fun s => s.pfid)).contains r.pfid = retrySet r := by
  by_cases hrs : retrySet r = true
  · rw [hrs]
    have hmem : r ∈ toRetryOf stations := (mem_toRetryOf stations r).mpr ⟨hr, hrs⟩
    simpa using List.mem_map.mpr ⟨r, hmem, rfl⟩
  · have hrs2 : retrySet r = false := by simpa using hrs
    rw [hrs2]
    by_contra hcon
    have hcon2 : r.pfid ∈ (toRetryOf stations).map (fun s => s.pfid) := by
      simpa using hcon
    obtain ⟨s, hsmem, hspf⟩ := List.mem_map.mp hcon2
    have hsst : s ∈ stations := ((mem_toRetryOf stations s).mp hsmem).1
    have hsrs : retrySet s = true := ((mem_toRetryOf stations s).mp hsmem).2
    have heq : s = r := pfid_inj stations hnd s r hsst hr hspf
    rw [heq, hrs2] at hsrs
    cases hsrs

/-- An attempt counted rejected-or-error leaves a non-`accepted` final
status. -/
theorem final_status_of_rc (res : List (String × JVal))
    (h : (attemptCounts res).2 = 1) :
    (finalWrite res).status = "rejected" ∨ (finalWrite res).status = "error" := by
  cases herr : jlookup res "error" with
  | some v =>
      right
      unfold finalWrite
      rw [herr]
  | none =>
      have hfw : finalWrite res = firstWrite res := by
        unfold finalWrite
        rw [herr]
      rw [hfw]
      unfold attemptCounts at h
      unfold firstWrite
      rcases hnats : jgetD res "natsResponse" (JVal.jobj []) with _ | b | q | s | xs | fields
      · right; rfl
      · right; rfl
      · right; rfl
      · right; rfl
      · right; rfl
      · rw [hnats] at h
        by_cases hacc : isAccepted fields = true
        · simp [hacc] at h
        · have hacc2 : isAccepted fields = false := by simpa using hacc
          left
          simp [hacc2]

/-- One non-`accepted` member falsifies `allAccepted`. -/
theorem allAccepted_false_of_mem (stations : List StationRecord) (r : StationRecord)
    (hr : r ∈ stations) (hstatus : (r.update_status == some "accepted") = false) :
    allAccepted stations = false := by
  unfold allAccepted
  by_contra hcon
  have hall : stations.all (fun s => s.update_status == some "accepted") = true := by
    simpa using hcon
  have := List.all_eq_true.mp hall r hr
  rw [hstatus] at this
  cases this

/-- `remove_completed_site` is a no-op on a scope with a non-`accepted`
record. -/
theorem remove_noop_of_not_accepted (L : Ledger) (k : String) (site : SiteEntry)
    (hs : lookupSite L.sites k = some site) (hall : allAccepted site.stations = false) :
    remove_completed_site L k = L := by
  simp [remove_completed_site, hs, hall]

/-- The whole retry update loop, unrolled: starting from any accumulator,
folding a non-empty list of records (whose identifiers all occur in the
present site) writes the site entry back once with `stationsAfter`, appends
one `(pfid, value)` attempt per record, and adds up the two counters. -/
theorem retryFold_eq (k : String) (outcome : String → CallResult) (value now : String)
    (items : List StationRecord) :
    ∀ (L : Ledger) (site : SiteEntry) (att0 : List (String × String)) (a0 rc0 : Nat),
    lookupSite L.sites k = some site →
    (site.stations.map (fun r => r.pfid)).Nodup →
    (∀ s ∈ items, site.stations.any (fun r => r.pfid == s.pfid) = true) →
    items ≠ [] →
    items.foldl (retryStep k outcome value now) ⟨L, att0, a0, rc0⟩ =
      ⟨{ sites := setSite L.sites k
          (siteWithStations site (stationsAfter outcome now items site.stations) now) },
        att0 ++ items.map (fun s => (s.pfid, value)),
        a0 + (items.map (fun s => (attemptCounts (call_response (outcome s.pfid))).1)).sum,
        rc0 + (items.map (fun s => (attemptCounts (call_response (outcome s.pfid))).2)).sum⟩ := by
  induction items with
  | nil =>
      intro L site att0 a0 rc0 _ _ _ hne
      exact absurd rfl hne
  | cons s items ih =>
      intro L site att0 a0 rc0 hs hnd hitems _
      simp only [List.foldl_cons]
      have hwb : writeBack outcome now s.pfid =
          (fun r => if r.pfid == s.pfid
            then setWrite r (finalWrite (call_response (outcome s.pfid))) now else r) := rfl
      have hstep : retryStep k outcome value now ⟨L, att0, a0, rc0⟩ s =
          ⟨{ sites := setSite L.sites k (siteWithStations site
              (site.stations.map (writeBack outcome now s.pfid)) now) },
            att0 ++ [(s.pfid, value)],
            a0 + (attemptCounts (call_response (outcome s.pfid))).1,
            rc0 + (attemptCounts (call_response (outcome s.pfid))).2⟩ := by
        simp only [retryStep]
        rw [applyWritesFor_eq L k s.pfid (call_response (outcome s.pfid)) now site hs hnd
          (hitems s (by simp))]
        rfl
      rw [hstep]
      by_cases hin : items = []
      · subst hin
        simp only [List.foldl_nil, List.map_cons, List.map_nil, List.sum_cons,
          List.sum_nil, List.append_nil, Nat.add_zero]
        show _ = (⟨{ sites := setSite L.sites k (siteWithStations site
            (stationsAfter outcome now [s] site.stations) now) },
          att0 ++ [(s.pfid, value)],
          a0 + (attemptCounts (call_response (outcome s.pfid))).1,
          rc0 + (attemptCounts (call_response (outcome s.pfid))).2⟩ : RetryOut)
        rfl
      · have hs1 : lookupSite (setSite L.sites k (siteWithStations site
            (site.stations.map (writeBack outcome now s.pfid)) now)) k =
            some (siteWithStations site
              (site.stations.map (writeBack outcome now s.pfid)) now) :=
          lookupSite_setSite_self _ _ _
        have hnd1 : ((siteWithStations site
            (site.stations.map (writeBack outcome now s.pfid)) now).stations.map
            (fun r => r.pfid)).Nodup := by
          show ((site.stations.map (writeBack outcome now s.pfid)).map
            (fun r => r.pfid)).Nodup
          rw [hwb, map_write_pfids s.pfid (finalWrite (call_response (outcome s.pfid))) now]
          exact hnd
        have hitems1 : ∀ s2 ∈ items, (siteWithStations site
            (site.stations.map (writeBack outcome now s.pfid)) now).stations.any
            (fun r => r.pfid == s2.pfid) = true := by
          intro s2 h2
          show ((site.stations.map (writeBack outcome now s.pfid)).any
            (fun r => r.pfid == s2.pfid)) = true
          rw [hwb, any_pfid_map s.pfid (finalWrite (call_response (outcome s.pfid))) now]
          exact hitems s2 (by simp [h2])
        rw [ih _ _ _ _ _ hs1 hnd1 hitems1 hin]
        show (⟨{ sites := setSite (setSite L.sites k _) k _ }, _, _, _⟩ : RetryOut) = _
        rw [setSite_setSite]
        simp only [List.map_cons, List.sum_cons, List.append_assoc, List.singleton_append,
          Nat.add_assoc]
        rfl

/-- Each attempt's rejected-or-error increment is zero or one. -/
theorem attemptCounts_snd (res : List (String × JVal)) :
    (attemptCounts res).2 = 0 ∨ (attemptCounts res).2 = 1 := by
  unfold attemptCounts
  rcases jgetD res "natsResponse" (JVal.jobj []) with _ | b | q | s | xs | fields
  · right; rfl
  · right; rfl
  · right; rfl
  · right; rfl
  · right; rfl
  · by_cases hacc : isAccepted fields = true
    · left; simp [hacc]
    · right; simp [hacc]

/-- C5 counterexample: a scope whose station list repeats one identifier —
first an `accepted` record, then a `pending` one.  Retrying re-attempts the
pending record, but the status update lands on the first record with that
identifier: the `accepted` record is flipped to `rejected`, contradicting
"station records already in accepted ... their status is not changed by the
retry". -/
theorem c5_counterexample :
    ((sampleSite [sampleRec "X" (some "accepted"),
        sampleRec "X" (some "pending")]).stations.map (fun r => r.update_status)
      = [some "accepted", some "pending"]) ∧
    ((main_retry_site
        { sites := [("0051-09", sampleSite [sampleRec "X" (some "accepted"),
                                            sampleRec "X" (some "pending")])] }
        "0051-09"
        (fun _ => CallResult.ok
          [("natsResponse", JVal.jobj [("status", JVal.jstr "NotSupported")])])
        "t1" true).ledger.sites.map
      (fun p => p.2.stations.map (fun r => r.update_status)))
      = [[some "rejected", some "pending"]] :=
  ⟨rfl, rfl⟩

/-- C5 (amended): on a scope whose station list is non-empty and carries
duplicate-free identifiers, `main_retry_site` (confirmed) re-attempts
exactly the records with status `pending`, `rejected` or `error` — in that
category order — writing the scope's stored corrective schedule (serialized
once; no device state is read); records already `accepted` are outside the
retry list and their entries are left untouched by the update map; when the
retry list is empty the removal-if-complete check is performed directly,
and otherwise the final ledger equals the removal-if-complete check applied
to the ledger in which exactly the retried records carry their attempt's
final status (the check being skipped by the code only when some attempt
was counted rejected-or-error, in which case it is provably a no-op). -/
theorem c5_retry (ledger : Ledger) (key : String) (outcome : String → CallResult)
    (now : String) (site : SiteEntry)
    (hs : lookupSite ledger.sites key = some site)
    (hne : site.stations ≠ [])
    (hnd : (site.stations.map (fun r => r.pfid)).Nodup) :
    ((main_retry_site ledger key outcome now true).attempts =
      (toRetryOf site.stations).map
        (fun s => (s.pfid, dumpsSchedule site.correct_schedule))) ∧
    (∀ r ∈ site.stations, r.update_status = some "accepted" →
      retrySet r = false ∧
      (if retrySet r
       then setWrite r (finalWrite (call_response (outcome r.pfid))) now else r) = r) ∧
    (toRetryOf site.stations = [] →
      main_retry_site ledger key outcome now true =
        ⟨remove_completed_site ledger key, [], 0, 0⟩) ∧
    (toRetryOf site.stations ≠ [] →
      (main_retry_site ledger key outcome now true).ledger =
        remove_completed_site
          { sites := setSite ledger.sites key (siteWithStations site
              (site.stations.map (fun r =>
                if retrySet r
                then setWrite r (finalWrite (call_response (outcome r.pfid))) now
                else r)) now) } key) := by
  have hie : site.stations.isEmpty = false := by
    cases hx : site.stations with
    | nil => exact absurd hx hne
    | cons a l => rfl
  have hacc_part : ∀ r ∈ site.stations, r.update_status = some "accepted" →
      retrySet r = false ∧
      (if retrySet r
       then setWrite r (finalWrite (call_response (outcome r.pfid))) now else r) = r := by
    intro r _ hst
    have hrs : retrySet r = false := by
      unfold retrySet
      rw [hst]
      decide
    refine ⟨hrs, ?_⟩
    rw [hrs]
    simp
  by_cases htr : toRetryOf site.stations = []
  · have hmain : main_retry_site ledger key outcome now true =
        ⟨remove_completed_site ledger key, [], 0, 0⟩ := by
      unfold main_retry_site
      rw [hs]
      simp only [hie, Bool.false_eq_true, if_false, htr, List.isEmpty_nil, if_true]
    refine ⟨?_, hacc_part, fun _ => hmain, fun hcon => absurd htr hcon⟩
    rw [hmain, htr]
    rfl
  · -- the retry list is non-empty
    have htrb : (toRetryOf site.stations).isEmpty = false := by
      cases hx : toRetryOf site.stations with
      | nil => exact absurd hx htr
      | cons a l => rfl
    have hitems : ∀ s ∈ toRetryOf site.stations,
        site.stations.any (fun r => r.pfid == s.pfid) = true := by
      intro s hsmem
      have hmem : s ∈ site.stations := ((mem_toRetryOf site.stations s).mp hsmem).1
      exact List.any_eq_true.mpr ⟨s, hmem, by simp⟩
    have hF := retryFold_eq key outcome (dumpsSchedule site.correct_schedule) now
      (toRetryOf site.stations) ledger site [] 0 0 hs hnd hitems htr
    have hsts : stationsAfter outcome now (toRetryOf site.stations) site.stations =
        site.stations.map (fun r =>
          if retrySet r
          then setWrite r (finalWrite (call_response (outcome r.pfid))) now else r) := by
      rw [stationsAfter_map outcome now _ _ (toRetry_pfids_nodup site.stations hnd)]
      apply List.map_congr_left
      intro r hr
      rw [contains_toRetry_iff site.stations hnd r hr]
    have hunfold : main_retry_site ledger key outcome now true =
        (if ((toRetryOf site.stations).foldl
            (retryStep key outcome (dumpsSchedule site.correct_schedule) now)
            ⟨ledger, [], 0, 0⟩).rejected_count == 0
         then { (toRetryOf site.stations).foldl
            (retryStep key outcome (dumpsSchedule site.correct_schedule) now)
            ⟨ledger, [], 0, 0⟩ with
            ledger := remove_completed_site ((toRetryOf site.stations).foldl
              (retryStep key outcome (dumpsSchedule site.correct_schedule) now)
              ⟨ledger, [], 0, 0⟩).ledger key }
         else (toRetryOf site.stations).foldl
            (retryStep key outcome (dumpsSchedule site.correct_schedule) now)
            ⟨ledger, [], 0, 0⟩) := by
      unfold main_retry_site
      rw [hs]
      simp only [hie, Bool.false_eq_true, if_false, htrb, Bool.not_true]
    rw [hF] at hunfold
    rw [hsts] at hunfold
    set M : Ledger := { sites := setSite ledger.sites key (siteWithStations site
        (site.stations.map (fun r =>
          if retrySet r
          then setWrite r (finalWrite (call_response (outcome r.pfid))) now else r)) now) }
      with hM
    set rc : Nat := ((toRetryOf site.stations).map
      (fun s => (attemptCounts (call_response (outcome s.pfid))).2)).sum with hrc
    refine ⟨?_, hacc_part, fun hcon => absurd hcon htr, fun _ => ?_⟩
    · rw [hunfold]
      by_cases hz : (0 + rc == 0) = true
      · rw [if_pos hz]
        rfl
      · rw [if_neg hz]
        rfl
    · rw [hunfold]
      by_cases hz : (0 + rc == 0) = true
      · rw [if_pos hz]
      · rw [if_neg hz]
        show M = remove_completed_site M key
        -- some attempt was rejected-or-error: the removal is a no-op
        have hrcne : rc ≠ 0 := by
          intro h0
          exact hz (by simp [h0])
        have hex : ∃ s ∈ toRetryOf site.stations,
            (attemptCounts (call_response (outcome s.pfid))).2 = 1 := by
          by_contra hno
          apply hrcne
          rw [hrc]
          apply List.sum_eq_zero
          intro x hx
          obtain ⟨s, hsmem, rfl⟩ := List.mem_map.mp hx
          rcases attemptCounts_snd (call_response (outcome s.pfid)) with h0 | h1
          · exact h0
          · exact absurd ⟨s, hsmem, h1⟩ hno
        obtain ⟨s, hsmem, hs1⟩ := hex
        have hsst : s ∈ site.stations := ((mem_toRetryOf site.stations s).mp hsmem).1
        have hsrs : retrySet s = true := ((mem_toRetryOf site.stations s).mp hsmem).2
        have hbad : ((setWrite s (finalWrite (call_response (outcome s.pfid))) now).update_status
            == some "accepted") = false := by
          rcases final_status_of_rc _ hs1 with hrej | herr
          · show (some (finalWrite (call_response (outcome s.pfid))).status
              == some "accepted") = false
            rw [hrej]
            decide
          · show (some (finalWrite (call_response (outcome s.pfid))).status
              == some "accepted") = false
            rw [herr]
            decide
        have hmemmap : setWrite s (finalWrite (call_response (outcome s.pfid))) now ∈
            site.stations.map (fun r =>
              if retrySet r
              then setWrite r (finalWrite (call_response (outcome r.pfid))) now else r) := by
          have := List.mem_map_of_mem (fun r =>
            if retrySet r
            then setWrite r (finalWrite (call_response (outcome r.pfid))) now else r) hsst
          simp only [hsrs, if_true] at this
          exact this
        have hall : allAccepted (siteWithStations site
            (site.stations.map (fun r =>
              if retrySet r
              then setWrite r (finalWrite (call_response (outcome r.pfid))) now else r))
            now).stations = false :=
          allAccepted_false_of_mem _ _ hmemmap hbad
        have hlook : lookupSite M.sites key = some (siteWithStations site
            (site.stations.map (fun r =>
              if retrySet r
              then setWrite r (finalWrite (call_response (outcome r.pfid))) now else r)) now) := by
          rw [hM]
          exact lookupSite_setSite_self _ _ _
        exact (remove_noop_of_not_accepted M key _ hlook hall).symm

/-- C5 witness: a scope with one `accepted` and one `rejected` station; the
attempts of the confirmed retry are exactly the rejected record with the
stored corrective schedule. -/
theorem c5_witness :
    (main_retry_site
      { sites := [("0051-09", sampleSite [sampleRec "Y" (some "accepted"),
                                          sampleRec "X" (some "rejected")])] }
      "0051-09"
      (fun _ => CallResult.ok [("natsResponse", JVal.jobj [("status", JVal.jstr "Accepted")])])
      "t1" true).attempts =
    (toRetryOf (sampleSite [sampleRec "Y" (some "accepted"),
        sampleRec "X" (some "rejected")]).stations).map
      (fun s => (s.pfid, dumpsSchedule (sampleSite [sampleRec "Y" (some "accepted"),
        sampleRec "X" (some "rejected")]).correct_schedule)) :=
  (c5_retry
    { sites := [("0051-09", sampleSite [sampleRec "Y" (some "accepted"),
                                        sampleRec "X" (some "rejected")])] }
    "0051-09"
    (fun _ => CallResult.ok [("natsResponse", JVal.jobj [("status", JVal.jstr "Accepted")])])
    "t1"
    (sampleSite [sampleRec "Y" (some "accepted"), sampleRec "X" (some "rejected")])
    rfl (List.cons_ne_nil _ _) (by decide)).1

/-! ### Theorems for claim C6 -/

/-- The model check never yields the scope-filter fate. -/
theorem classifyModel_ne_filtered (e : DirEntry) :
    classifyModel e ≠ EntryFate.filteredOut := by
  unfold classifyModel
  split <;> simp

/-- Under a scope filter, a truthy identifier is dropped exactly when the
plain string test against the rendered key fails. -/
theorem entryFate_filtered_iff (pre : String) (e : DirEntry) (p : String)
    (hp : e.pfid = some p) (hpne : p ≠ "") :
    entryFate (some pre) e = EntryFate.filteredOut ↔ strStarts pre p = false := by
  unfold entryFate
  rw [hp]
  have hpb : (p == "") = false := by simpa using hpne
  simp only [hpb, Bool.false_eq_true, if_false]
  by_cases hss : strStarts pre p = true
  · simp only [hss, Bool.not_true, Bool.false_eq_true, if_false]
    constructor
    · intro hcm
      exact absurd hcm (classifyModel_ne_filtered e)
    · intro hf
      exact Bool.noConfusion hf
  · have hss2 : strStarts pre p = false := by simpa using hss
    simp [hss2]

/-- C6 counterexample: under the level-4 scope `0051-09-02-02`, the LiteON
station `0051-09-02-021` is retained (plain string prefix), although its
fourth identifier segment is `021`, not `02` — refuting "retained iff the
fourth segment matches the scope's fourth component exactly". -/
theorem c6_counterexample :
    entryFate (scanFilterKey "0051" "09" (some "02") (some "02"))
      { pfid := some "0051-09-02-021", evse_type := some "LiteON" } = EntryFate.liteon ∧
    (pfidSegments "0051-09-02-021")[3]? = some "021" ∧
    ("021" : String) ≠ "02" :=
  ⟨rfl, rfl, by decide⟩

/-- C6 (amended): with non-empty components, a level-3 scope renders the
filter key `level1-level2-level3` and a level-4 scope renders
`level1-level2-level3-level4`; in both cases a station with a truthy
identifier is dropped by the scope filter iff its identifier does not start
(plain string test, no segment comparison) with the rendered key. -/
theorem c6_scope_filter (acn acc g : String) (e : DirEntry) (p : String)
    (hacc : acc ≠ "") (hg : g ≠ "") :
    (scanFilterKey acn acc (some g) none = some (acn ++ "-" ++ acc ++ "-" ++ g)) ∧
    (e.pfid = some p → p ≠ "" →
      (entryFate (scanFilterKey acn acc (some g) none) e = EntryFate.filteredOut ↔
        strStarts (acn ++ "-" ++ acc ++ "-" ++ g) p = false)) ∧
    (∀ s4, s4 ≠ "" →
      (scanFilterKey acn acc (some g) (some s4) =
        some (acn ++ "-" ++ acc ++ "-" ++ g ++ "-" ++ s4)) ∧
      (e.pfid = some p → p ≠ "" →
        (entryFate (scanFilterKey acn acc (some g) (some s4)) e = EntryFate.filteredOut ↔
          strStarts (acn ++ "-" ++ acc ++ "-" ++ g ++ "-" ++ s4) p = false))) := by
  have hkey3 : scanFilterKey acn acc (some g) none =
      some (acn ++ "-" ++ acc ++ "-" ++ g) := by
    simp [scanFilterKey, buildPfidKey, optPart, truthyOptS, joinWith, hacc, hg,
      String.append_assoc]
  refine ⟨hkey3, ?_, ?_⟩
  · intro hp hpne
    rw [hkey3]
    exact entryFate_filtered_iff _ e p hp hpne
  · intro s4 hs4
    have hkey4 : scanFilterKey acn acc (some g) (some s4) =
        some (acn ++ "-" ++ acc ++ "-" ++ g ++ "-" ++ s4) := by
      simp [scanFilterKey, buildPfidKey, optPart, truthyOptS, joinWith, hacc, hg, hs4,
        String.append_assoc]
    refine ⟨hkey4, ?_⟩
    intro hp hpne
    rw [hkey4]
    exact entryFate_filtered_iff _ e p hp hpne

/-- C6 witness: the amended theorem at the scope `0051-09` + group `02`,
with a station from a different group. -/
theorem c6_witness :
    scanFilterKey "0051" "09" (some "02") none =
      some ("0051" ++ "-" ++ "09" ++ "-" ++ "02") ∧
    (entryFate (scanFilterKey "0051" "09" (some "02") none)
        { pfid := some "0051-12-07-01", evse_type := some "LiteON" } =
        EntryFate.filteredOut ↔
      strStarts ("0051" ++ "-" ++ "09" ++ "-" ++ "02") "0051-12-07-01" = false) := by
  have h := c6_scope_filter "0051" "09" "02"
    { pfid := some "0051-12-07-01", evse_type := some "LiteON" } "0051-12-07-01"
    (by decide) (by decide)
  exact ⟨h.1, h.2.1 rfl (by decide)⟩

/-! ### Theorems for claim C7 -/

/-- The scan loop is one row per candidate, appended in order. -/
theorem process_rows_eq_map (loads : String → Option (List ScheduleEntry))
    (io : String → StationCalls) (acn acc : String) (pfids : List String)
    (prior : List ScanRow) :
    process_stations_rows loads io acn acc pfids prior =
      prior ++ pfids.map (scanStation loads io acn acc) := by
  induction pfids generalizing prior with
  | nil => simp [process_stations_rows]
  | cons p rest ih =>
      show process_stations_rows loads io acn acc rest
          (prior ++ [scanStation loads io acn acc p]) = _
      rw [ih]
      simp

/-- C7 counterexample: a station whose enable read (step 4a) fails on
transport while the schedule read succeeds with a conforming schedule is
recorded as conforming (`some true`), not indeterminate — refuting "a read
failure on one station ... is recorded with an indeterminate verdict" for
enable-read failures. -/
theorem c7_counterexample :
    (cex7calls "P").enableRead = CallResult.fail "transport error" ∧
    (scanStation cex7loads cex7calls "0051" "09" "P").all_correct = some true ∧
    (scanStation cex7loads cex7calls "0051" "09" "P").enabled = true :=
  ⟨rfl, rfl, rfl⟩

/-- C7 (amended): the scan never aborts — every candidate yields exactly
one row, each row depending only on that candidate's own reads; a failure
of the *schedule* read (transport error or unparseable response, both
returning the error object) leaves the affected station with an absent
schedule and an indeterminate verdict, while later candidates are still
scanned (the row at every index is the scan of that index's candidate). -/
theorem c7_read_containment (loads : String → Option (List ScheduleEntry))
    (io : String → StationCalls) (acn acc : String) (pfids : List String)
    (prior : List ScanRow) :
    (process_stations_rows loads io acn acc pfids prior =
      prior ++ pfids.map (scanStation loads io acn acc)) ∧
    ((process_stations_rows loads io acn acc pfids prior).length =
      prior.length + pfids.length) ∧
    (∀ i, i < pfids.length →
      (process_stations_rows loads io acn acc pfids prior)[prior.length + i]? =
        pfids[i]?.map (scanStation loads io acn acc)) ∧
    (∀ p d, (io p).schedRead = CallResult.fail d →
      (scanStation loads io acn acc p).schedule = none ∧
      (scanStation loads io acn acc p).all_correct = none ∧
      (scanStation loads io acn acc p).pfid = p) := by
  have hmap := process_rows_eq_map loads io acn acc pfids prior
  refine ⟨hmap, ?_, ?_, ?_⟩
  · rw [hmap]
    simp
  · intro i hi
    rw [hmap]
    rw [List.getElem?_append_right (by simp)]
    simp
  · intro p d hfail
    have hresp : call_response (io p).schedRead = [("error", JVal.jstr d)] := by
      rw [hfail]
      rfl
    have hsched : extract_pricing_schedule loads (call_response (io p).schedRead) = none := by
      rw [hresp]
      rfl
    refine ⟨?_, ?_, rfl⟩
    · show (scanStation loads io acn acc p).schedule = none
      simp [scanStation, hsched]
    · show (scanStation loads io acn acc p).all_correct = none
      simp [scanStation, hsched, check_schedule_values]

/-- C7 witness: a two-candidate scan with failing schedule reads still
produces two rows, and the failing station is indeterminate. -/
theorem c7_witness :
    ((process_stations_rows cex7loads cex7fails "0051" "09" ["P", "Q"] []).length =
      ([] : List ScanRow).length + (["P", "Q"] : List String).length) ∧
    (scanStation cex7loads cex7fails "0051" "09" "P").all_correct = none := by
  have h := c7_read_containment cex7loads cex7fails "0051" "09" ["P", "Q"] []
  exact ⟨h.2.1, (h.2.2.2 "P" "boom" rfl).2.1⟩

/-! ### Theorems for claim C2 -/

/-- A sweep step on an already-completed ACC is skipped. -/
theorem stepAcc_mem (scan : String → List ScanRow) (acn : String) (total : Nat)
    (started : String) (st : SweepState) (acc : String)
    (h : st.completed.contains acc = true) :
    stepAcc scan acn total started st acc = st := by
  unfold stepAcc
  rw [if_pos h]

/-- Sweeping ACCs that are all already completed changes nothing. -/
theorem sweepAccs_skip (scan : String → List ScanRow) (acn : String) (total : Nat)
    (started : String) :
    ∀ (l : List String) (st : SweepState),
      (∀ a ∈ l, st.completed.contains a = true) →
      sweepAccs scan acn total started st l = st := by
  intro l
  induction l with
  | nil => intro st _; rfl
  | cons a rest ih =>
      intro st hall
      show sweepAccs scan acn total started (stepAcc scan acn total started st a) rest = st
      rw [stepAcc_mem scan acn total started st a (hall a (List.mem_cons_self a rest))]
      exact ih st (fun b hb => hall b (List.mem_cons_of_mem a hb))

/-- Sweeping ACCs none of which has been completed yet processes each in
order, appending its scan to the results and writing one checkpoint per
ACC. -/
theorem sweepAccs_fresh (scan : String → List ScanRow) (acn : String) (total : Nat)
    (started : String) :
    ∀ (l : List String) (c0 : List String) (r0 : List ScanRow) (s0 : List Checkpoint),
      (∀ a ∈ l, a ∉ c0) → l.Nodup →
      sweepAccs scan acn total started { completed := c0, results := r0, saves := s0 } l =
        { completed := c0 ++ l, results := r0 ++ l.flatMap scan,
          saves := s0 ++ savesFor scan acn total started c0 r0 l } := by
  intro l
  induction l with
  | nil =>
      intro c0 r0 s0 _ _
      simp [sweepAccs, savesFor]
  | cons a rest ih =>
      intro c0 r0 s0 hdisj hnd
      have hc : c0.contains a = false := by
        simpa using hdisj a (List.mem_cons_self a rest)
      have hstep : stepAcc scan acn total started
          { completed := c0, results := r0, saves := s0 } a =
          { completed := c0 ++ [a], results := r0 ++ scan a,
            saves := s0 ++
              [{ mode := "acn-only", acn_id := acn, total_accs := total,
                 completed_accs := c0 ++ [a], results := r0 ++ scan a,
                 started_at := started }] } := by
        have hcne : ¬ (c0.contains a = true) := by rw [hc]; simp
        unfold stepAcc
        rw [if_neg hcne]
      have hna := (List.nodup_cons.mp hnd).1
      have hnd2 := (List.nodup_cons.mp hnd).2
      have hdisj2 : ∀ b ∈ rest, b ∉ c0 ++ [a] := by
        intro b hb hmem
        rcases List.mem_append.mp hmem with h1 | h1
        · exact hdisj b (List.mem_cons_of_mem a hb) h1
        · have hba : b = a := by simpa using h1
          subst hba
          exact hna hb
      show sweepAccs scan acn total started
          (stepAcc scan acn total started { completed := c0, results := r0, saves := s0 } a)
          rest = _
      rw [hstep, ih (c0 ++ [a]) (r0 ++ scan a) _ hdisj2 hnd2]
      simp [savesFor, List.append_assoc]

/-- `savesFor` writes one checkpoint per ACC. -/
theorem savesFor_length (scan : String → List ScanRow) (acn : String) (total : Nat)
    (started : String) :
    ∀ (l : List String) (c0 : List String) (r0 : List ScanRow),
      (savesFor scan acn total started c0 r0 l).length = l.length := by
  intro l
  induction l with
  | nil => intro c0 r0; rfl
  | cons a rest ih => intro c0 r0; simp [savesFor, ih]

/-- The checkpoint written after the `i`-th ACC of a fresh stretch holds
exactly the first `i+1` ACCs together with their accumulated results. -/
theorem savesFor_idx (scan : String → List ScanRow) (acn : String) (total : Nat)
    (started : String) :
    ∀ (l : List String) (c0 : List String) (r0 : List ScanRow) (i : Nat), i < l.length →
      (savesFor scan acn total started c0 r0 l)[i]? =
        some { mode := "acn-only", acn_id := acn, total_accs := total,
               completed_accs := c0 ++ l.take (i+1),
               results := r0 ++ (l.take (i+1)).flatMap scan, started_at := started } := by
  intro l
  induction l with
  | nil =>
      intro c0 r0 i hi
      exact absurd hi (Nat.not_lt_zero i)
  | cons a rest ih =>
      intro c0 r0 i hi
      cases i with
      | zero => simp [savesFor]
      | succ j =>
          have hj : j < rest.length := Nat.lt_of_succ_lt_succ hi
          have hrec : (savesFor scan acn total started c0 r0 (a :: rest))[j+1]? =
              (savesFor scan acn total started (c0 ++ [a]) (r0 ++ scan a) rest)[j]? := by
            simp [savesFor]
          rw [hrec, ih (c0 ++ [a]) (r0 ++ scan a) j hj]
          simp [List.take_succ_cons, List.append_assoc]

/-- The sweep over a concatenation is the composition of the sweeps. -/
theorem sweepAccs_append (scan : String → List ScanRow) (acn : String) (total : Nat)
    (started : String) (st : SweepState) (l1 l2 : List String) :
    sweepAccs scan acn total started st (l1 ++ l2) =
      sweepAccs scan acn total started (sweepAccs scan acn total started st l1) l2 := by
  simp [sweepAccs]

/-- C2: checkpoints of the acn-only sweep.  A fresh run interrupted after
`k` of the child ACCs has written exactly `k` checkpoints — one after each
completed child scope, not batched — the `i`-th holding the first `i+1`
ACCs as completed together with their accumulated results.  Restarting from
the `k`-interruption checkpoint with the same scope skips exactly the
already-completed children: the final result list is the interrupted run's
result list followed by the scans of the remaining children, one further
checkpoint per remaining child is written, and on graceful completion the
progress file is deleted (`persisted = none`). -/
theorem c2_checkpointed_sweep (scan : String → List ScanRow) (acn now2 started : String)
    (accs : List String) (k : Nat) (hnd : accs.Nodup) (hk : k ≤ accs.length) :
    ((sweepAccs scan acn accs.length started
        { completed := [], results := [], saves := [] } (accs.take k)).saves.length = k) ∧
    (∀ i, i < k →
      (sweepAccs scan acn accs.length started
          { completed := [], results := [], saves := [] } (accs.take k)).saves[i]? =
        some { mode := "acn-only", acn_id := acn, total_accs := accs.length,
               completed_accs := accs.take (i+1),
               results := (accs.take (i+1)).flatMap scan, started_at := started }) ∧
    (main_pfid_acn_only scan acn accs
        (some { mode := "acn-only", acn_id := acn, total_accs := accs.length,
                completed_accs := accs.take k,
                results := (accs.take k).flatMap scan, started_at := started }) now2 =
      { results := (accs.take k).flatMap scan ++ (accs.drop k).flatMap scan,
        saves := savesFor scan acn accs.length started (accs.take k)
          ((accs.take k).flatMap scan) (accs.drop k),
        persisted := none }) ∧
    ((savesFor scan acn accs.length started (accs.take k)
        ((accs.take k).flatMap scan) (accs.drop k)).length = accs.length - k) := by
  have hndk : (accs.take k).Nodup := hnd.sublist (List.take_sublist k accs)
  have hndd : (accs.drop k).Nodup := hnd.sublist (List.drop_sublist k accs)
  have hlen : (accs.take k).length = k := by
    simp [List.length_take, Nat.min_eq_left hk]
  have hfresh := sweepAccs_fresh scan acn accs.length started (accs.take k) [] [] []
    (by intro a _ h; exact absurd h (List.not_mem_nil a)) hndk
  refine ⟨?_, ?_, ?_, ?_⟩
  · rw [hfresh]
    simp [savesFor_length, hlen]
  · intro i hi
    have hi2 : i < (accs.take k).length := by rw [hlen]; exact hi
    have hidx := savesFor_idx scan acn accs.length started (accs.take k) [] [] i hi2
    rw [hfresh]
    show ([] ++ savesFor scan acn accs.length started [] [] (accs.take k))[i]? = _
    rw [List.nil_append, hidx]
    have htt : (accs.take k).take (i+1) = accs.take (i+1) := by
      rw [List.take_take]
      congr 1
      exact Nat.min_eq_left (Nat.succ_le_of_lt hi)
    simp [htt]
  · have hmain : main_pfid_acn_only scan acn accs
        (some { mode := "acn-only", acn_id := acn, total_accs := accs.length,
                completed_accs := accs.take k,
                results := (accs.take k).flatMap scan, started_at := started }) now2 =
        { results := (sweepAccs scan acn accs.length started
            { completed := accs.take k, results := (accs.take k).flatMap scan, saves := [] }
            accs).results,
          saves := (sweepAccs scan acn accs.length started
            { completed := accs.take k, results := (accs.take k).flatMap scan, saves := [] }
            accs).saves,
          persisted := none } := by
      simp [main_pfid_acn_only]
    have hskip : sweepAccs scan acn accs.length started
        { completed := accs.take k, results := (accs.take k).flatMap scan, saves := [] }
        (accs.take k) =
        { completed := accs.take k, results := (accs.take k).flatMap scan, saves := [] } := by
      apply sweepAccs_skip
      intro a ha
      simpa using ha
    have hdisj : ∀ a ∈ accs.drop k, a ∉ accs.take k := by
      intro a ha hmem
      exact (List.disjoint_take_drop hnd le_rfl) hmem ha
    have hfresh2 := sweepAccs_fresh scan acn accs.length started (accs.drop k)
      (accs.take k) ((accs.take k).flatMap scan) [] hdisj hndd
    have h1 := sweepAccs_append scan acn accs.length started
      { completed := accs.take k, results := (accs.take k).flatMap scan, saves := [] }
      (accs.take k) (accs.drop k)
    rw [List.take_append_drop] at h1
    rw [hmain, h1, hskip, hfresh2]
    simp
  · simp [savesFor_length]

/-- C2 witness: the sweep theorem at a two-ACC scope interrupted after
one child. -/
theorem c2_witness :
    (["07", "09"] : List String).Nodup ∧ 1 ≤ (["07", "09"] : List String).length ∧
    (sweepAccs (fun a => [sampleRow (a ++ "-1") a]) "0051"
        (["07", "09"] : List String).length "t0"
        { completed := [], results := [], saves := [] }
        ((["07", "09"] : List String).take 1)).saves.length = 1 :=
  ⟨by decide, by decide,
    (c2_checkpointed_sweep (fun a => [sampleRow (a ++ "-1") a]) "0051" "t1" "t0"
      ["07", "09"] 1 (by decide) (by decide)).1⟩

/-! ### Theorems for claim C8 -/

/-- C8: entry with no `--retry` flag and a non-empty argument vector.  Zero
non-empty tokens take the InvalidScope exit-1 path with an empty trace of
external calls and file accesses; 1 to 4 tokens are mapped positionally to
the four levels (absent levels stay `none`) and the mode label is that of
the deepest populated level. -/
theorem c8_scope_tokens (argv : List String)
    (hnr : argv.contains "--retry" = false) (hne : argv ≠ []) :
    (tokensOf (argv.filter (fun a => !(strStarts "--" a))) = [] →
      main_argv argv = (MainStart.invalidScope, [])) ∧
    (∀ parts, parts = tokensOf (argv.filter (fun a => !(strStarts "--" a))) →
      1 ≤ parts.length → parts.length ≤ 4 →
      parse_pfid_input (argv.filter (fun a => !(strStarts "--" a))) =
        { acn := parts[0]?, acc := parts[1]?, acg := parts[2]?, acs := parts[3]?,
          mode := modeLabel parts.length }) := by
  have hch : ∀ n : Nat, 1 ≤ n → n ≤ 4 →
      (if n ≥ 4 then some "acn-acc-acg-acs"
        else if n ≥ 3 then some "acn-acc-acg"
        else if n ≥ 2 then some "acn-acc"
        else if n ≥ 1 then some "acn-only"
        else (none : Option String)) = modeLabel n := by
    intro n h1 h4
    interval_cases n <;> rfl
  have hie : argv.isEmpty = false := by
    cases argv with
    | nil => exact absurd rfl hne
    | cons a l => rfl
  constructor
  · intro hz
    have hacn : (parse_pfid_input (argv.filter (fun a => !(strStarts "--" a)))).acn = none := by
      simp [parse_pfid_input, hz]
    have hnrm : "--retry" ∉ argv := by simpa using hnr
    simp [main_argv, hnrm, hie, hne, hacn]
  · intro parts hparts h1 h4
    subst hparts
    rw [← hch _ h1 h4]
    rfl

/-- C8 witness: the entry theorem at the single dash-separated argument
`0051-09`, which parses as two tokens in acn-acc mode. -/
theorem c8_witness :
    (["0051-09"] : List String).contains "--retry" = false ∧
    (["0051-09"] : List String) ≠ [] ∧
    parse_pfid_input ((["0051-09"] : List String).filter (fun a => !(strStarts "--" a))) =
      { acn := some "0051", acc := some "09", acg := none, acs := none,
        mode := some "acn-acc" } := by
  refine ⟨by decide, by decide, ?_⟩
  have h := (c8_scope_tokens ["0051-09"] (by decide) (by decide)).2
    ["0051", "09"] (by decide) (by decide) (by decide)
  rw [h]
  rfl

/-- C1 witness: the classification theorem evaluated on a concrete deviating
one-entry schedule. -/
theorem c1_witness :
    (check_schedule_values (some [{ t := some 0, f := some (mkRat 1 4) }]) (mkRat 1 2)).1 =
      some false :=
  (c1_classification (some [{ t := some 0, f := some (mkRat 1 4) }])).2.1.mpr
    ⟨[{ t := some 0, f := some (mkRat 1 4) }], rfl,
      { t := some 0, f := some (mkRat 1 4) }, by simp, by decide⟩
